import Mathlib

/-!
# System-call layer of pintos-kaist (`userprog/syscall.c`)

A shallow embedding of the handlers of `userprog/syscall.c`.

* Pointers (`struct file *`, user addresses) are natural numbers; `NULL` is `0`.
* The thread control block fields the handlers touch (`fdTable`, `fdIdx`,
  `stdin_count`, `stdout_count`, `exit_status`, `pml4`, `spt`) are fields of
  `State`, together with the heap of `struct file` objects and the trace of
  calls made into collaborators that live outside `syscall.c`.
* `exit` never returns to its caller: a handler that reaches it yields
  `Result.exited`, every other path yields `Result.ret`. Handlers with no path
  to `exit` (`close`, `seek`, `dup2`, `filesize`, `add_file_to_fdt`) are plain
  state-passing functions.
* Constants and macros declared in headers outside `syscall.c`
  (`FDCOUNT_LIMIT`, `PGSIZE`, `is_user_vaddr`) are the fields of `Config`; the
  call numbers of `syscall-nr.h` are the fields of `SyscallNr`.
* `syscall_handler` yields an `Outcome`, which adds to `Result` the ways a trap
  can end without returning to the caller (`power_off`, a successful
  `process_exec`, `NOT_REACHED`, a loop that never ends). `mmap` yields `none`
  when its page loop never ends.
* `uint64_t` arithmetic (`addr + length`, the loop index of `mmap`) is taken
  modulo `2 ^ 64`.
* What a collaborator answers during one handler execution (`filesys_open`,
  `file_read`, `input_getc`, ...) is a field of `Collab`.
* `fd` arguments and return values are `int` and are kept as integers. The
  cursor `fdIdx` is only ever advanced by the code and is kept as a natural
  number. The counters `stdin_count`, `stdout_count` and `dupCount` are
  integers; no run considered here brings them near the 32-bit limits.
* A store through a user pointer is recorded in the trace as `Event.store`;
  what the MMU does with it belongs to the page-fault path outside this file.
-/

namespace Pintos

/-- Console-input sentinel, `const int STDIN = 1`, compared against `struct file *`. -/
def STDIN : Nat := 1

/-- Console-output sentinel, `const int STDOUT = 2`. -/
def STDOUT : Nat := 2

/-- The fields of `struct file` that `syscall.c` reads or writes. -/
structure file where
  pos : Int
  dupCount : Int
deriving DecidableEq, Repr

/-- The field of `struct page` that `syscall.c` reads. -/
structure page where
  writable : Bool
deriving DecidableEq, Repr

/-- Calls into collaborators (and stores through user pointers), in program order. -/
inductive Event where
  | printf_exit (status : Int)
  | thread_exit
  | putbuf (buffer size : Nat)
  | input_getc
  | store (addr byte : Nat)
  | filesys_open (name : Nat)
  | file_close (f : Nat)
  | file_read (f buffer size : Nat)
  | file_write (f buffer size : Nat)
  | file_length (f : Nat)
  | lock_acquire
  | lock_release
  | stray_store (index : Int) (value : Nat)
  | filesys_create (name initial_size : Nat)
  | filesys_remove (name : Nat)
  | do_mmap (addr length : Nat) (writable : Int) (f : Nat) (offset : Int)
  | do_munmap (addr : Nat)
  | power_off
  | memcpy (src : Nat)
  | process_exec (cmd_line : Nat)
  | process_wait (tid : Int)
  | process_fork (name : Nat)
deriving DecidableEq, Repr

/-- Constants and macros that `syscall.c` takes from headers outside it. -/
structure Config where
  FDCOUNT_LIMIT : Nat
  PGSIZE : Nat
  is_user_vaddr : Nat → Bool

/-- Answers of the external collaborators during one handler execution.
`input_getc i` is the `i`-th key delivered; `uninit` is the indeterminate value
of a local `int` that is returned without having been assigned, `uninit_ptr`
the indeterminate value of a pointer-returning function left by `return;`.
`process_exec` is `none` when `process_exec` does not come back (the new image
runs), `do_mmap_ok` says whether the VM mapping installer succeeds. -/
structure Collab where
  filesys_open : Nat
  file_read : Int
  file_write : Int
  file_length : Int
  input_getc : Nat → Nat
  uninit : Int
  uninit_ptr : Nat
  filesys_create : Bool
  filesys_remove : Bool
  do_mmap_ok : Bool
  process_exec : Option Int
  process_fork : Int

/-- The current thread, the heap of file objects, and the trace of collaborator calls.
`pml4 a` is the result of `pml4e_walk (cur->pml4, a, 0)` (`none` for `NULL`);
`spt a` is the result of `spt_find_page (&cur->spt, a)`. -/
structure State where
  fdTable : Nat → Nat
  fdIdx : Nat
  stdin_count : Int
  stdout_count : Int
  exit_status : Int
  files : Nat → file
  pml4 : Nat → Option Nat
  spt : Nat → Option page
  trace : List Event

/-- Outcome of a handler: it returns `v`, or the process was terminated by `exit`. -/
inductive Result (α : Type) where
  | ret (v : α) (s : State)
  | exited (s : State)

/-- Array store `t[k] = v`. -/
def setSlot (t : Nat → Nat) (k v : Nat) : Nat → Nat :=
  fun i => if i = k then v else t i

/-- Store into the file object at address `p`. -/
def setFile (h : Nat → file) (p : Nat) (f : file) : Nat → file :=
  fun q => if q = p then f else h q

/-- Record a collaborator call. -/
def emit (e : Event) (s : State) : State :=
  { s with trace := s.trace ++ [e] }

/-- Conversion of an `unsigned` to `int` (two's complement, 32 bits). -/
def int_of_unsigned (n : Nat) : Int :=
  if n % 2 ^ 32 < 2 ^ 31 then ((n % 2 ^ 32 : Nat) : Int) else ((n % 2 ^ 32 : Nat) : Int) - 2 ^ 32

/-- State in which `exit (status)` leaves the thread: the status is recorded, the
termination message is printed, and `thread_exit` is entered. -/
def exit_state (status : Int) (s : State) : State :=
  emit .thread_exit (emit (.printf_exit status) { s with exit_status := status })

/-- The source function `exit`: it does not return. -/
def exit {α : Type} (status : Int) (s : State) : Result α :=
  .exited (exit_state status s)

/-- The source function `find_file_by_fd`. -/
def find_file_by_fd (K : Config) (fd : Int) (s : State) : Nat :=
  if fd < 0 ∨ fd ≥ (K.FDCOUNT_LIMIT : Int) then 0 else s.fdTable fd.toNat

/-- The source function `remove_file_from_fdt`. -/
def remove_file_from_fdt (K : Config) (fd : Int) (s : State) : State :=
  if fd < 0 ∨ fd ≥ (K.FDCOUNT_LIMIT : Int) then s
  else { s with fdTable := setSlot s.fdTable fd.toNat 0 }

/-- The `while` loop of `add_file_to_fdt`, started at cursor `i`; the first
argument bounds the iterations (the loop advances the cursor at most
`FDCOUNT_LIMIT - i` times). Returns the cursor at loop exit. -/
def fdt_scan (K : Config) (t : Nat → Nat) : Nat → Nat → Nat
  | 0, i => i
  | n + 1, i => if i < K.FDCOUNT_LIMIT ∧ t i ≠ 0 then fdt_scan K t n (i + 1) else i

/-- The source function `add_file_to_fdt`. -/
def add_file_to_fdt (K : Config) (f : Nat) (s : State) : Int × State :=
  let idx := fdt_scan K s.fdTable (K.FDCOUNT_LIMIT - s.fdIdx) s.fdIdx
  let s1 := { s with fdIdx := idx }
  if idx ≥ K.FDCOUNT_LIMIT then (-1, s1)
  else ((idx : Int), { s1 with fdTable := setSlot s1.fdTable idx f })

/-- The source function `close`. -/
def close (K : Config) (fd : Int) (s : State) : State :=
  let objfile := find_file_by_fd K fd s
  if objfile = 0 then s
  else
    let s1 :=
      if fd = 0 ∨ objfile = STDIN then { s with stdin_count := s.stdin_count - 1 }
      else if fd = 1 ∨ objfile = STDOUT then { s with stdout_count := s.stdout_count - 1 }
      else s
    if fd ≤ 1 ∨ objfile ≤ 2 then s1
    else
      let s2 := remove_file_from_fdt K fd s1
      let s3 := emit .lock_acquire s2
      let s4 :=
        if (s3.files objfile).dupCount = 0 then emit (.file_close objfile) s3
        else if (s3.files objfile).dupCount > 0 then
          { s3 with
            files := setFile s3.files objfile
              ⟨(s3.files objfile).pos, (s3.files objfile).dupCount - 1⟩ }
        else s3
      emit .lock_release s4

/-- The source function `filesize`. -/
def filesize (K : Config) (X : Collab) (fd : Int) (s : State) : Int × State :=
  let fileobj := find_file_by_fd K fd s
  if fileobj = 0 then (-1, s)
  else (X.file_length, emit (.file_length fileobj) s)

/-- The source function `check_address`. -/
def check_address (K : Config) (uaddr : Nat) (s : State) : Result Unit :=
  if uaddr = 0 then exit (-1) s
  else if !K.is_user_vaddr uaddr then exit (-1) s
  else
    match s.pml4 uaddr with
    | none => exit (-1) s
    | some _ =>
      match s.spt uaddr with
      | none => exit (-1) s
      | some _ => .ret () s

/-- The source function `check_writable_addr`. -/
def check_writable_addr (ptr : Nat) (s : State) : Result Unit :=
  match s.spt ptr with
  | none => exit (-1) s
  | some pg => if !pg.writable then exit (-1) s else .ret () s

/-- The console loop of `read`: `n` is the number of iterations left
(`size - i`), `i` the loop counter. Returns the final `i`. -/
def getc_loop (X : Collab) (buffer : Nat) : Nat → Nat → State → Nat × State
  | 0, i, s => (i, s)
  | n + 1, i, s =>
    let c := X.input_getc i % 256
    let s1 := emit (.store (buffer + i) c) (emit .input_getc s)
    if c = 0 then (i, s1) else getc_loop X buffer n (i + 1) s1

/-- The source function `read`. -/
def read (K : Config) (X : Collab) (fd : Int) (buffer size : Nat) (s : State) : Result Int :=
  match check_address K buffer s with
  | .exited s1 => .exited s1
  | .ret _ s1 =>
    match check_writable_addr buffer s1 with
    | .exited s2 => .exited s2
    | .ret _ s2 =>
      let fileobj := find_file_by_fd K fd s2
      if fileobj = 0 then .ret (-1) s2
      else if fd = 0 ∧ s2.stdin_count ≠ 0 then
        let r := getc_loop X buffer size 0 s2
        .ret (r.1 : Int) r.2
      else if fd = 1 then .ret (-1) s2
      else if fd > 1 then
        .ret X.file_read
          (emit .lock_release (emit (.file_read fileobj buffer size) (emit .lock_acquire s2)))
      else .ret X.uninit s2

/-- The source function `write`. -/
def write (K : Config) (X : Collab) (fd : Int) (buffer size : Nat) (s : State) : Result Int :=
  match check_address K buffer s with
  | .exited s1 => .exited s1
  | .ret _ s1 =>
    let fileobj := find_file_by_fd K fd s1
    if fileobj = 0 then .ret (-1) s1
    else if fileobj = STDOUT ∧ s1.stdout_count ≠ 0 then
      .ret (int_of_unsigned size) (emit (.putbuf buffer size) s1)
    else if fileobj = STDIN then .ret (-1) s1
    else if fileobj > 2 then
      .ret X.file_write
        (emit .lock_release (emit (.file_write fileobj buffer size) (emit .lock_acquire s1)))
    else .ret X.uninit s1

/-- The source function `seek`. -/
def seek (K : Config) (fd : Int) (position : Nat) (s : State) : State :=
  let fileobj := find_file_by_fd K fd s
  if fileobj ≤ 2 then s
  else
    let s1 := emit .lock_acquire s
    let s2 := { s1 with
      files := setFile s1.files fileobj ⟨int_of_unsigned position, (s1.files fileobj).dupCount⟩ }
    emit .lock_release s2

/-- The source function `dup2`. The final store `cur->fdTable[newfd] = objfile`
has no bounds check. For `newfd` outside `[0, FDCOUNT_LIMIT)` the store lands
outside the table and its effect is undefined: the embedding only marks it with
`stray_store` and does not say what it overwrites, so the state after such a
call stands for nothing beyond the statements executed before the store.
Invariants over runs are stated for runs whose `dup2` calls name an in-range
`newfd`. -/
def dup2 (K : Config) (oldfd newfd : Int) (s : State) : Int × State :=
  let objfile := find_file_by_fd K oldfd s
  if objfile = 0 then (-1, s)
  else if oldfd = newfd then (newfd, s)
  else
    let s1 :=
      if objfile = STDIN then { s with stdin_count := s.stdin_count + 1 }
      else if objfile = STDOUT then { s with stdout_count := s.stdout_count + 1 }
      else { s with
        files := setFile s.files objfile
          ⟨(s.files objfile).pos, (s.files objfile).dupCount + 1⟩ }
    let s2 := close K newfd s1
    let s3 :=
      if 0 ≤ newfd ∧ newfd < (K.FDCOUNT_LIMIT : Int) then
        { s2 with fdTable := setSlot s2.fdTable newfd.toNat objfile }
      else emit (.stray_store newfd objfile) s2
    (newfd, s3)

/-- The source function `open` (the name is reserved in Lean). The `strcmp`
branch has an empty body and is omitted. -/
def sys_open (K : Config) (X : Collab) (name : Nat) (s : State) : Result Int :=
  match check_address K name s with
  | .exited s1 => .exited s1
  | .ret _ s1 =>
    let fileobj := X.filesys_open
    let s2 := emit (.filesys_open name) s1
    if fileobj = 0 then .ret (-1) s2
    else
      let r := add_file_to_fdt K fileobj s2
      let s3 := emit .lock_acquire r.2
      let s4 := if r.1 = -1 then emit (.file_close fileobj) s3 else s3
      .ret r.1 (emit .lock_release s4)

/-- The source function `halt`: `power_off` does not return. The state is the
one the machine is switched off in. -/
def halt (s : State) : State :=
  emit .power_off s

/-- The source function `create`. -/
def create (K : Config) (X : Collab) (name initial_size : Nat) (s : State) : Result Bool :=
  match check_address K name s with
  | .exited s1 => .exited s1
  | .ret _ s1 => .ret X.filesys_create (emit (.filesys_create name initial_size) s1)

/-- The source function `remove`. -/
def remove (K : Config) (X : Collab) (name : Nat) (s : State) : Result Bool :=
  match check_address K name s with
  | .exited s1 => .exited s1
  | .ret _ s1 => .ret X.filesys_remove (emit (.filesys_remove name) s1)

/-- The source function `tell`; it returns `unsigned`. The early `return;`
leaves the value indeterminate. -/
def tell (K : Config) (X : Collab) (fd : Int) (s : State) : Nat × State :=
  let fileobj := find_file_by_fd K fd s
  if fileobj ≤ 2 then ((X.uninit % 2 ^ 32).toNat, s)
  else (((s.files fileobj).pos % 2 ^ 32).toNat, s)

/-- The source function `wait`: it calls `process_wait` and has no `return`
statement, so the value it hands back is indeterminate. -/
def wait (X : Collab) (tid : Int) (s : State) : Int × State :=
  (X.uninit, emit (.process_wait tid) s)

/-- The source function `fork`. -/
def fork (X : Collab) (thread_name : Nat) (s : State) : Int × State :=
  (X.process_fork, emit (.process_fork thread_name) s)

/-- The source function `munmap`. -/
def munmap (addr : Nat) (s : State) : State :=
  emit (.do_munmap addr) s

/-- Outcome of one trap into the kernel: the handler returns, or the process is
terminated by `exit`, or the machine is powered off, or `process_exec` replaced
the process image, or an assertion (`NOT_REACHED`) stopped the kernel, or a
loop of the handler never ends. -/
inductive Outcome (α : Type) where
  | ret (v : α) (s : State)
  | exited (s : State)
  | halted (s : State)
  | replaced (s : State)
  | panicked (s : State)
  | diverged (s : State)

/-- The source function `exec`. The copy of the command line into the local
buffer is recorded as `Event.memcpy`. -/
def exec (K : Config) (X : Collab) (cmd_line : Nat) (s : State) : Outcome Int :=
  match check_address K cmd_line s with
  | .exited s1 => .exited s1
  | .ret _ s1 =>
    let s2 := emit (.process_exec cmd_line) (emit (.memcpy cmd_line) s1)
    match X.process_exec with
    | none => .replaced s2
    | some v => if v = -1 then .ret (-1) s2 else .panicked s2

/-- Truncation to 64 bits (`uint64_t` arithmetic). -/
def u64 (n : Nat) : Nat := n % 2 ^ 64

/-- Conversion of an `int` to `uint64_t` (sign extension), as in
`f->R.rax = open (...)`. -/
def u64_of_int (v : Int) : Nat := (v % 2 ^ 64).toNat

/-- Modelled from the spec: the VM mapping installer `do_mmap` of `vm/file.c`,
which is not among the sources. A successful call returns `addr` and records a
supplemental-table entry for every page of `[addr, addr + length)`, that is
for every address whose page starts below `addr + length` and is not below
the page of `addr`; a failed call returns `NULL` and records nothing. -/
def do_mmap (K : Config) (X : Collab) (addr length : Nat) (writable : Int) (f : Nat)
    (offset : Int) (s : State) : Nat × State :=
  let s1 := emit (.do_mmap addr length writable f offset) s
  if X.do_mmap_ok then
    (addr, { s1 with
      spt := fun a =>
        if addr / K.PGSIZE ≤ a / K.PGSIZE ∧ a / K.PGSIZE * K.PGSIZE < addr + length then
          some ⟨decide (writable ≠ 0)⟩
        else s1.spt a })
  else (0, s1)

/-- The `for` loop of `mmap` over the pages of `[addr, stop)`, with the index a
`uint64_t`. `some true`: a page of the range has a supplemental-table entry;
`some false`: the loop ran to its end; `none`: the iterations given by the
first argument are used up. The index takes fewer than `2 ^ 64` values, so
`2 ^ 64` iterations without leaving the loop mean it never ends. -/
def mmap_scan (K : Config) (spt : Nat → Option page) (stop : Nat) : Nat → Nat → Option Bool
  | 0, i => if i < stop then none else some false
  | n + 1, i =>
    if i < stop then
      if (spt i).isSome then some true else mmap_scan K spt stop n (u64 (i + K.PGSIZE))
    else some false

/-- The source function `mmap`; `none` when its loop never ends. `offset` is an
`off_t`; `offset % PGSIZE != 0` holds exactly when `PGSIZE` does not divide it.
When the descriptor resolves to `NULL` the function leaves by `return;`. -/
def mmap (K : Config) (X : Collab) (addr length : Nat) (writable : Int) (fd : Int)
    (offset : Int) (s : State) : Option (Nat × State) :=
  if addr = 0 ∨ K.is_user_vaddr addr = false ∨ addr % K.PGSIZE ≠ 0 ∨
      offset % (K.PGSIZE : Int) ≠ 0 ∨ u64 (addr + length) = 0 ∨
      K.is_user_vaddr (u64 (addr + length)) = false then
    some (0, s)
  else
    match mmap_scan K s.spt (u64 (addr + length)) (2 ^ 64) addr with
    | none => none
    | some true => some (0, s)
    | some false =>
      let f := find_file_by_fd K fd s
      if f = 0 then some (X.uninit_ptr, s)
      else some (do_mmap K X addr length writable f offset s)

/-- The registers of `struct intr_frame` that `syscall_handler` reads or writes
(`f->R.rax` and the argument registers). -/
structure intr_frame where
  rax : Nat
  rdi : Nat
  rsi : Nat
  rdx : Nat
  r10 : Nat
  r8 : Nat

/-- The call numbers of `syscall-nr.h`, which is not among the sources. -/
structure SyscallNr where
  SYS_HALT : Nat
  SYS_EXIT : Nat
  SYS_FORK : Nat
  SYS_EXEC : Nat
  SYS_WAIT : Nat
  SYS_CREATE : Nat
  SYS_REMOVE : Nat
  SYS_OPEN : Nat
  SYS_FILESIZE : Nat
  SYS_READ : Nat
  SYS_WRITE : Nat
  SYS_SEEK : Nat
  SYS_TELL : Nat
  SYS_CLOSE : Nat
  SYS_MMAP : Nat
  SYS_MUNMAP : Nat
  SYS_DUP2 : Nat

/-- A handler result stored into `f->R.rax`, for handlers that can terminate
the process. -/
def store_rax (f : intr_frame) (r : Result Int) : Outcome intr_frame :=
  match r with
  | .exited s => .exited s
  | .ret v s => .ret { f with rax := u64_of_int v } s

/-- The source function `syscall_handler`: the `switch` on `f->R.rax`, case by
case in source order. `case SYS_REMOVE` has no `break`, so control runs on into
the body of `case SYS_OPEN`. Arguments are converted as the handler prototypes
say (`int`, `unsigned`, pointer). -/
def syscall_handler (K : Config) (N : SyscallNr) (X : Collab) (f : intr_frame) (s : State) :
    Outcome intr_frame :=
  if f.rax = N.SYS_HALT then .halted (halt s)
  else if f.rax = N.SYS_EXIT then .exited (exit_state (int_of_unsigned f.rdi) s)
  else if f.rax = N.SYS_CREATE then
    match create K X f.rdi (f.rsi % 2 ^ 32) s with
    | .exited s1 => .exited s1
    | .ret v s1 => .ret { f with rax := if v then 1 else 0 } s1
  else if f.rax = N.SYS_REMOVE then
    match remove K X f.rdi s with
    | .exited s1 => .exited s1
    | .ret _ s1 => store_rax f (sys_open K X f.rdi s1)
  else if f.rax = N.SYS_OPEN then store_rax f (sys_open K X f.rdi s)
  else if f.rax = N.SYS_CLOSE then .ret f (close K (int_of_unsigned f.rdi) s)
  else if f.rax = N.SYS_FILESIZE then
    .ret { f with rax := u64_of_int (filesize K X (int_of_unsigned f.rdi) s).1 }
      (filesize K X (int_of_unsigned f.rdi) s).2
  else if f.rax = N.SYS_EXEC then
    match exec K X f.rdi s with
    | .ret v s1 => if v = -1 then .exited (exit_state (-1) s1) else .ret f s1
    | .exited s1 => .exited s1
    | .halted s1 => .halted s1
    | .replaced s1 => .replaced s1
    | .panicked s1 => .panicked s1
    | .diverged s1 => .diverged s1
  else if f.rax = N.SYS_READ then
    store_rax f (read K X (int_of_unsigned f.rdi) f.rsi (f.rdx % 2 ^ 32) s)
  else if f.rax = N.SYS_WRITE then
    store_rax f (write K X (int_of_unsigned f.rdi) f.rsi (f.rdx % 2 ^ 32) s)
  else if f.rax = N.SYS_SEEK then
    .ret f (seek K (int_of_unsigned f.rdi) (f.rsi % 2 ^ 32) s)
  else if f.rax = N.SYS_TELL then
    .ret { f with rax := (tell K X (int_of_unsigned f.rdi) s).1 }
      (tell K X (int_of_unsigned f.rdi) s).2
  else if f.rax = N.SYS_WAIT then
    .ret { f with rax := u64_of_int (wait X (int_of_unsigned f.rdi) s).1 }
      (wait X (int_of_unsigned f.rdi) s).2
  else if f.rax = N.SYS_FORK then
    .ret { f with rax := u64_of_int (fork X f.rdi s).1 } (fork X f.rdi s).2
  else if f.rax = N.SYS_DUP2 then
    .ret { f with
        rax := u64_of_int (dup2 K (int_of_unsigned f.rdi) (int_of_unsigned f.rsi) s).1 }
      (dup2 K (int_of_unsigned f.rdi) (int_of_unsigned f.rsi) s).2
  else if f.rax = N.SYS_MMAP then
    match mmap K X f.rdi f.rsi (int_of_unsigned f.rdx) (int_of_unsigned f.r10)
        (int_of_unsigned f.r8) s with
    | none => .diverged s
    | some r => .ret { f with rax := r.1 } r.2
  else if f.rax = N.SYS_MUNMAP then .ret f (munmap f.rdi s)
  else .ret f s

/-- The validator of the specification, `validate (pointer, mustBeWritable)`:
`check_address (p)` and then, when `w` is set, `check_writable_addr (p)`. -/
def validate (K : Config) (p : Nat) (w : Bool) (s : State) : Result Unit :=
  match check_address K p s with
  | .exited s1 => .exited s1
  | .ret _ s1 => if w then check_writable_addr p s1 else .ret () s1

/-- One call of a process on its descriptor table. -/
inductive Call where
  | open (X : Collab) (name : Nat)
  | close (fd : Int)
  | dup2 (oldfd newfd : Int)

/-- State after one call, `none` when the call terminated the process. -/
def step (K : Config) (c : Call) (s : State) : Option State :=
  match c with
  | .open X name =>
    match sys_open K X name s with
    | .ret _ s1 => some s1
    | .exited _ => none
  | .close fd => some (close K fd s)
  | .dup2 oldfd newfd => some (dup2 K oldfd newfd s).2

/-- States reachable from `s0` by calls that each satisfy `ok` in the state
they are issued in. -/
inductive Reach (K : Config) (ok : State → Call → Prop) (s0 : State) : State → Prop where
  | init : Reach K ok s0 s0
  | next {s s1 : State} {c : Call} :
      Reach K ok s0 s → ok s c → step K c s = some s1 → Reach K ok s0 s1

/-! ## Concrete configuration and states used for evaluation -/

/-- A configuration with the values of pintos-kaist: 4 KiB pages, user
addresses below `KERN_BASE = 0x8004000000`, and the table limit named in the
comment of `add_file_to_fdt`. -/
def K0 : Config :=
  { FDCOUNT_LIMIT := 512, PGSIZE := 4096, is_user_vaddr := fun a => decide (a < 0x8004000000) }

/-- A freshly started process: the two console sentinels in slots 0 and 1, the
cursor at 2, both attachment counters 1, and exactly one mapped user page,
`[0x400000, 0x401000)`, which is writable. -/
def fresh : State :=
  { fdTable := fun i => if i = 0 then STDIN else if i = 1 then STDOUT else 0
    fdIdx := 2
    stdin_count := 1
    stdout_count := 1
    exit_status := 0
    files := fun _ => ⟨0, 0⟩
    pml4 := fun a => if a / 4096 = 0x400 then some 0x8004200000 else none
    spt := fun a => if a / 4096 = 0x400 then some ⟨true⟩ else none
    trace := [] }

/-- Collaborators for one call: `filesys_open` hands out the object at
`0x8004100000`, and the first key delivered by the keyboard is NUL. -/
def X0 : Collab :=
  { filesys_open := 0x8004100000, file_read := 0, file_write := 0, file_length := 0,
    input_getc := fun _ => 0, uninit := 0, uninit_ptr := 0, filesys_create := true,
    filesys_remove := true, do_mmap_ok := true, process_exec := some (-1), process_fork := 3 }

/-- A process that opened descriptors 2 and 3 and then closed 2: slot 2 is
empty again, slot 3 holds the object at `0x8004100040`, the cursor is at 3. -/
def gap : State :=
  { fresh with
    fdTable := fun i =>
      if i = 0 then STDIN else if i = 1 then STDOUT else if i = 3 then 0x8004100040 else 0
    fdIdx := 3 }

/-- A process whose cursor has run to the end of the table while slot 2 is empty. -/
def spent : State :=
  { fresh with fdIdx := 512 }

/-- No restriction on the calls of a run. -/
def any_call (_s : State) (_c : Call) : Prop := True

/-- Restriction on the calls of a run: every `dup2` names a `newfd` inside
`[0, FDCOUNT_LIMIT)`, so that its final store stays inside the table, and a
`dup2` onto descriptor 0 or 1 duplicates a descriptor that resolves to no real
file (it holds a console sentinel, or nothing). -/
def console_target_ok (K : Config) (s : State) (c : Call) : Prop :=
  match c with
  | .dup2 oldfd newfd =>
    (0 ≤ newfd ∧ newfd < (K.FDCOUNT_LIMIT : Int)) ∧
      ((newfd = 0 ∨ newfd = 1) → find_file_by_fd K oldfd s ≤ 2)
  | _ => True

/-- A process that has opened one file: descriptor 2 holds the object at
`0x8004100000`, whose duplication counter is 0. -/
def opened : State :=
  { fresh with
    fdTable := fun i =>
      if i = 0 then STDIN else if i = 1 then STDOUT else if i = 2 then 0x8004100000 else 0 }

/-- The call numbers of pintos-kaist (`lib/syscall-nr.h`). -/
def N0 : SyscallNr :=
  { SYS_HALT := 0, SYS_EXIT := 1, SYS_FORK := 2, SYS_EXEC := 3, SYS_WAIT := 4,
    SYS_CREATE := 5, SYS_REMOVE := 6, SYS_OPEN := 7, SYS_FILESIZE := 8, SYS_READ := 9,
    SYS_WRITE := 10, SYS_SEEK := 11, SYS_TELL := 12, SYS_CLOSE := 13, SYS_MMAP := 14,
    SYS_MUNMAP := 15, SYS_DUP2 := 22 }

/-- Calls into the filesystem: `filesys_create`, `filesys_remove`,
`filesys_open`, `file_close`, `file_read`, `file_write`. -/
def Event.fs_call : Event → Bool
  | .filesys_create _ _ => true
  | .filesys_remove _ => true
  | .filesys_open _ => true
  | .file_close _ => true
  | .file_read _ _ _ => true
  | .file_write _ _ _ => true
  | _ => false

/-- Whether every filesystem call of a trace is made with `file_lock` held;
the first argument says whether the lock is held where the trace starts. -/
def fs_calls_locked : Bool → List Event → Bool
  | _, [] => true
  | held, e :: es =>
    match e with
    | .lock_acquire => fs_calls_locked true es
    | .lock_release => fs_calls_locked false es
    | _ => (held || !e.fs_call) && fs_calls_locked held es

/-- Number of descriptor slots of the table that hold the object `p`. -/
def slots_holding (K : Config) (s : State) (p : Nat) : Nat :=
  (List.range K.FDCOUNT_LIMIT).countP (fun i => decide (s.fdTable i = p))

/-- Number of times the object `p` has been released by `file_close`. -/
def released_count (s : State) (p : Nat) : Nat :=
  s.trace.count (Event.file_close p)

/-- What `filesys_open` hands back besides `NULL`: a newly allocated object.
Its address lies above the sentinels, no slot refers to it, its duplication
counter is 0 as `file_open` leaves it, and it has not been released before
(the address of a released object is not handed out again). -/
def fresh_object (K : Config) (s : State) (p : Nat) : Prop :=
  2 < p ∧ (∀ i, i < K.FDCOUNT_LIMIT → s.fdTable i ≠ p) ∧ (s.files p).dupCount = 0 ∧
    released_count s p = 0

/-- Restriction on the calls of a run: `filesys_open` answers `NULL` or a newly
allocated object, and every `dup2` names an in-range `newfd`. -/
def newfd_in_range (K : Config) (s : State) (c : Call) : Prop :=
  match c with
  | .open X _ => X.filesys_open = 0 ∨ fresh_object K s X.filesys_open
  | .close _ => True
  | .dup2 _ newfd => 0 ≤ newfd ∧ newfd < (K.FDCOUNT_LIMIT : Int)

/-- Bookkeeping of the object `p` is sound, with `e` references to it held
outside the table: either no slot holds it, or it has not been released, its
duplication counter is not negative, and the slots holding it plus `e` number
at most the counter plus one; and it has been released at most once. -/
def object_ok (K : Config) (e : Nat) (s : State) (p : Nat) : Prop :=
  ((e = 0 ∧ slots_holding K s p = 0) ∨
    (released_count s p = 0 ∧ 0 ≤ (s.files p).dupCount ∧
      ((slots_holding K s p + e : Nat) : Int) ≤ (s.files p).dupCount + 1)) ∧
  released_count s p ≤ 1

/-- The first statements of `dup2` after its two early returns: the
attachment counter, or the duplication counter of `objfile`, is incremented. -/
def dup2_bump (objfile : Nat) (s : State) : State :=
  if objfile = STDIN then { s with stdin_count := s.stdin_count + 1 }
  else if objfile = STDOUT then { s with stdout_count := s.stdout_count + 1 }
  else { s with
    files := setFile s.files objfile
      ⟨(s.files objfile).pos, (s.files objfile).dupCount + 1⟩ }

/-! ## General facts used by several theorems -/

theorem exit_state_status (status : Int) (s : State) :
    (exit_state status s).exit_status = status := rfl

theorem exit_state_trace (status : Int) (s : State) :
    (exit_state status s).trace = s.trace ++ [Event.printf_exit status, Event.thread_exit] := by
  simp [exit_state, emit]

theorem find_file_by_fd_out_of_range (K : Config) (fd : Int) (s : State)
    (h : fd < 0 ∨ fd ≥ (K.FDCOUNT_LIMIT : Int)) : find_file_by_fd K fd s = 0 := by
  unfold find_file_by_fd
  rw [if_pos h]

theorem find_file_by_fd_in_range (K : Config) (fd : Int) (s : State)
    (h0 : 0 ≤ fd) (h1 : fd < (K.FDCOUNT_LIMIT : Int)) :
    find_file_by_fd K fd s = s.fdTable fd.toNat := by
  unfold find_file_by_fd
  rw [if_neg (by omega)]

/-! ## The address validator -/

/-- C1: `check_address (p)` followed, when `w` is set, by `check_writable_addr (p)`
terminates the process with exit status -1 exactly when `p` is null, or not a
user address, or has no page-table entry, or has no supplemental-table page,
or `w` is set and that page is read-only; in every other case it returns and
the whole state, exit status included, is unchanged. -/
theorem validate_terminates_iff (K : Config) (p : Nat) (w : Bool) (s : State) :
    ((∃ s1, validate K p w s = Result.exited s1 ∧ s1.exit_status = -1) ↔
      (p = 0 ∨ K.is_user_vaddr p = false ∨ s.pml4 p = none ∨ s.spt p = none ∨
        (w = true ∧ ∃ pg, s.spt p = some pg ∧ pg.writable = false))) ∧
    ((∃ s1, validate K p w s = Result.exited s1 ∧ s1.exit_status = -1) ∨
      validate K p w s = Result.ret () s) := by
  unfold validate check_address check_writable_addr exit
  by_cases h0 : p = 0
  · simp [h0, exit_state_status]
  · cases hu : K.is_user_vaddr p
    · simp [h0, hu, exit_state_status]
    · cases hp : s.pml4 p
      · simp [h0, hu, hp, exit_state_status]
      · cases hs : s.spt p with
        | none => simp [h0, hu, hp, hs, exit_state_status]
        | some pg =>
          cases w
          · simp [h0, hu, hp, hs]
          · cases hw : pg.writable <;> simp [h0, hu, hp, hs, hw, exit_state_status]

/-- C2: `write (fd, NULL, size)` terminates the process with exit status -1 for
every `fd`, `size` and state, and the only collaborator calls it makes are the
termination message and `thread_exit`: neither `putbuf` nor `file_write` runs. -/
theorem write_null_terminates (K : Config) (X : Collab) (fd : Int) (size : Nat) (s : State) :
    ∃ s1, write K X fd 0 size s = Result.exited s1 ∧ s1.exit_status = -1 ∧
      s1.trace = s.trace ++ [Event.printf_exit (-1), Event.thread_exit] ∧
      (∀ b n, Event.putbuf b n ∉ s1.trace.drop s.trace.length) ∧
      (∀ f b n, Event.file_write f b n ∉ s1.trace.drop s.trace.length) := by
  refine ⟨exit_state (-1) s, ?_, rfl, exit_state_trace _ _, ?_, ?_⟩
  · simp [write, check_address, exit]
  · intro b n
    simp [exit_state_trace]
  · intro f b n
    simp [exit_state_trace]

/-- C3, as stated, fails: the two-byte buffer at `0x400fff` starts on the mapped
writable page and ends on the unmapped page `0x401000`, yet `read (0, buffer, 2)`
is not terminated; it stores the first key into the buffer and returns 0. -/
theorem read_range_not_validated :
    (0x400fff ≤ 0x401000 ∧ 0x401000 < 0x400fff + 2) ∧
    fresh.pml4 0x401000 = none ∧ fresh.spt 0x401000 = none ∧
    ∃ s1, read K0 X0 0 0x400fff 2 fresh = Result.ret 0 s1 ∧
      s1.trace = [Event.input_getc, Event.store 0x400fff 0] := by
  refine ⟨by decide, by simp [fresh], by simp [fresh], ?_⟩
  simp [read, check_address, check_writable_addr, find_file_by_fd, getc_loop, emit,
    K0, X0, fresh, STDIN]

/-- C3, amended: `read` validates the address `buffer` itself. If the page
holding the first byte of the buffer is unmapped, has no supplemental-table
entry, or is read-only, the process is terminated with exit status -1 and
nothing is done before that but printing the termination message: no key is
fetched, no byte is stored, `file_read` is not called. -/
theorem read_validates_buffer_start (K : Config) (X : Collab) (fd : Int) (buffer size : Nat)
    (s : State)
    (h : s.pml4 buffer = none ∨ s.spt buffer = none ∨
      ∃ pg, s.spt buffer = some pg ∧ pg.writable = false) :
    ∃ s1, read K X fd buffer size s = Result.exited s1 ∧ s1.exit_status = -1 ∧
      s1.trace = s.trace ++ [Event.printf_exit (-1), Event.thread_exit] := by
  refine ⟨exit_state (-1) s, ?_, rfl, exit_state_trace _ _⟩
  unfold read check_address check_writable_addr exit
  by_cases h0 : buffer = 0
  · simp [h0]
  · cases hu : K.is_user_vaddr buffer
    · simp [h0, hu]
    · cases hp : s.pml4 buffer
      · simp [h0, hu, hp]
      · cases hs : s.spt buffer with
        | none => simp [h0, hu, hp, hs]
        | some pg =>
          rcases h with h | h | ⟨pg1, h1, h2⟩
          · simp [hp] at h
          · simp [hs] at h
          · rw [hs] at h1
            cases h1
            simp [h0, hu, hp, hs, h2]

/-- Witness for C3: the buffer at the unmapped address `0x401000`. -/
theorem read_validates_buffer_start_witness :
    fresh.pml4 0x401000 = none ∧
    ∃ s1, read K0 X0 0 0x401000 2 fresh = Result.exited s1 ∧ s1.exit_status = -1 ∧
      s1.trace = fresh.trace ++ [Event.printf_exit (-1), Event.thread_exit] :=
  ⟨by simp [fresh],
   read_validates_buffer_start K0 X0 0 0x401000 2 fresh (Or.inl (by simp [fresh]))⟩

/-! ## The descriptor table -/

/-- C4: for `fd < 0` or `fd ≥ FDCOUNT_LIMIT`, `find_file_by_fd` returns `NULL`;
`filesize`, `read` and `write` (on a buffer that passes validation) and `dup2`
as `oldfd` return -1 with the state unchanged; `close` and `seek` leave the
whole state unchanged; none of them terminates the process. -/
theorem out_of_range_fd_is_recoverable (K : Config) (X : Collab) (fd : Int) (s : State)
    (h : fd < 0 ∨ fd ≥ (K.FDCOUNT_LIMIT : Int)) :
    find_file_by_fd K fd s = 0 ∧
    filesize K X fd s = (-1, s) ∧
    (∀ b n, check_address K b s = Result.ret () s → check_writable_addr b s = Result.ret () s →
      read K X fd b n s = Result.ret (-1) s) ∧
    (∀ b n, check_address K b s = Result.ret () s → write K X fd b n s = Result.ret (-1) s) ∧
    (∀ newfd, dup2 K fd newfd s = (-1, s)) ∧
    close K fd s = s ∧
    (∀ position, seek K fd position s = s) := by
  have hf := find_file_by_fd_out_of_range K fd s h
  refine ⟨hf, ?_, ?_, ?_, ?_, ?_, ?_⟩
  · simp [filesize, hf]
  · intro b n hb hw
    simp [read, hb, hw, hf]
  · intro b n hb
    simp [write, hb, hf]
  · intro newfd
    simp [dup2, hf]
  · simp [close, hf]
  · intro position
    simp [seek, hf]

/-- Witness for C4: descriptor -1 in a fresh process, with the buffer `0x400000`. -/
theorem out_of_range_fd_is_recoverable_witness :
    find_file_by_fd K0 (-1) fresh = 0 ∧ close K0 (-1) fresh = fresh ∧
    read K0 X0 (-1) 0x400000 8 fresh = Result.ret (-1) fresh ∧
    write K0 X0 (-1) 0x400000 8 fresh = Result.ret (-1) fresh := by
  have h := out_of_range_fd_is_recoverable K0 X0 (-1) fresh (Or.inl (by decide))
  have hb : check_address K0 0x400000 fresh = Result.ret () fresh := by
    simp [check_address, K0, fresh]
  have hw : check_writable_addr 0x400000 fresh = Result.ret () fresh := by
    simp [check_writable_addr, fresh]
  exact ⟨h.1, h.2.2.2.2.2.1, h.2.2.1 _ 8 hb hw, h.2.2.2.1 _ 8 hb⟩

/-- C5 fails on the code: in a fresh process `dup2 (0, 512)`, whose `newfd`
equals `FDCOUNT_LIMIT`, returns 512 instead of -1, raises the console-input
attachment counter from 1 to 2, and stores the sentinel past the end of the
descriptor table. -/
theorem dup2_bad_newfd_not_rejected :
    find_file_by_fd K0 0 fresh = STDIN ∧ ¬ ((512 : Int) < (K0.FDCOUNT_LIMIT : Int)) ∧
    (dup2 K0 0 512 fresh).1 = 512 ∧
    fresh.stdin_count = 1 ∧ (dup2 K0 0 512 fresh).2.stdin_count = 2 ∧
    (dup2 K0 0 512 fresh).2.trace = [Event.stray_store 512 STDIN] := by
  simp [dup2, close, find_file_by_fd, emit, K0, fresh, STDIN, STDOUT]

/-- The cursor returned by the scan is not before its start. -/
theorem fdt_scan_ge (K : Config) (t : Nat → Nat) (n i : Nat) : i ≤ fdt_scan K t n i := by
  induction n generalizing i with
  | zero => simp [fdt_scan]
  | succ n ih =>
    unfold fdt_scan
    split
    · exact Nat.le_trans (Nat.le_succ i) (ih (i + 1))
    · exact Nat.le_refl i

/-- With enough iterations the scan stops where the loop condition is false. -/
theorem fdt_scan_stop (K : Config) (t : Nat → Nat) (n i : Nat)
    (hn : K.FDCOUNT_LIMIT - i ≤ n) :
    ¬ (fdt_scan K t n i < K.FDCOUNT_LIMIT ∧ t (fdt_scan K t n i) ≠ 0) := by
  induction n generalizing i with
  | zero =>
    simp only [fdt_scan]
    omega
  | succ n ih =>
    unfold fdt_scan
    split
    · exact ih (i + 1) (by omega)
    · assumption

/-- Every slot the scan passed over is in range and occupied. -/
theorem fdt_scan_skipped (K : Config) (t : Nat → Nat) (n i j : Nat)
    (hij : i ≤ j) (hj : j < fdt_scan K t n i) : j < K.FDCOUNT_LIMIT ∧ t j ≠ 0 := by
  induction n generalizing i with
  | zero =>
    simp only [fdt_scan] at hj
    omega
  | succ n ih =>
    unfold fdt_scan at hj
    split at hj
    · rename_i hc
      by_cases hji : j = i
      · subst hji
        exact hc
      · exact ih (i + 1) (by omega) hj
    · omega

/-- C9, as stated, fails: with slot 2 empty and the cursor at 3,
`add_file_to_fdt` returns 4 and leaves slot 2 empty; with slot 2 empty and the
cursor at `FDCOUNT_LIMIT` it returns -1. -/
theorem add_file_to_fdt_ignores_slots_below_cursor :
    (2 < K0.FDCOUNT_LIMIT ∧ gap.fdTable 2 = 0 ∧
      (add_file_to_fdt K0 0x8004100080 gap).1 = 4 ∧
      (add_file_to_fdt K0 0x8004100080 gap).2.fdTable 2 = 0) ∧
    (spent.fdTable 2 = 0 ∧ (add_file_to_fdt K0 0x8004100080 spent).1 = -1) := by
  simp [add_file_to_fdt, fdt_scan, setSlot, K0, gap, spent, fresh]

/-- C9, amended: `add_file_to_fdt (file)` scans from slot `fdIdx` upward. Either
it returns the smallest index `i` in `[fdIdx, FDCOUNT_LIMIT)` whose slot is
empty, stores `file` in exactly that slot and leaves the cursor at `i`, or it
returns -1 with the table unchanged; and it returns -1 if and only if no slot
in `[fdIdx, FDCOUNT_LIMIT)` is empty. -/
theorem add_file_to_fdt_first_fit_from_cursor (K : Config) (f : Nat) (s : State) :
    ((∃ i, s.fdIdx ≤ i ∧ i < K.FDCOUNT_LIMIT ∧ s.fdTable i = 0 ∧
        (∀ j, s.fdIdx ≤ j → j < i → s.fdTable j ≠ 0) ∧
        (add_file_to_fdt K f s).1 = (i : Int) ∧
        (add_file_to_fdt K f s).2.fdTable = setSlot s.fdTable i f ∧
        (add_file_to_fdt K f s).2.fdIdx = i) ∨
      ((add_file_to_fdt K f s).1 = -1 ∧ (add_file_to_fdt K f s).2.fdTable = s.fdTable)) ∧
    ((add_file_to_fdt K f s).1 = -1 ↔
      ∀ j, s.fdIdx ≤ j → j < K.FDCOUNT_LIMIT → s.fdTable j ≠ 0) := by
  have hge := fdt_scan_ge K s.fdTable (K.FDCOUNT_LIMIT - s.fdIdx) s.fdIdx
  have hstop := fdt_scan_stop K s.fdTable (K.FDCOUNT_LIMIT - s.fdIdx) s.fdIdx (Nat.le_refl _)
  have hskip := fdt_scan_skipped K s.fdTable (K.FDCOUNT_LIMIT - s.fdIdx) s.fdIdx
  unfold add_file_to_fdt
  generalize fdt_scan K s.fdTable (K.FDCOUNT_LIMIT - s.fdIdx) s.fdIdx = idx at hge hstop hskip
  by_cases hidx : idx ≥ K.FDCOUNT_LIMIT
  · simp only [hidx, if_true, true_and, true_iff]
    refine ⟨Or.inr trivial, ?_⟩
    intro j hj hjl
    exact (hskip j hj (by omega)).2
  · have hlt : idx < K.FDCOUNT_LIMIT := by omega
    have hz : s.fdTable idx = 0 := by
      by_contra hne
      exact hstop ⟨hlt, hne⟩
    simp only [hidx, if_false]
    refine ⟨Or.inl ⟨idx, hge, hlt, hz, fun j hj hji => (hskip j hj hji).2, rfl, rfl, rfl⟩, ?_⟩
    constructor
    · intro h
      omega
    · intro h
      exact absurd hz (h idx hge hlt)

/-- The only slot `close` can change is slot `fd`, and only for `fd > 1`. -/
theorem close_fdTable (K : Config) (fd : Int) (s : State) :
    (close K fd s).fdTable = s.fdTable ∨
    (1 < fd ∧ fd < (K.FDCOUNT_LIMIT : Int) ∧
      (close K fd s).fdTable = setSlot s.fdTable fd.toNat 0) := by
  unfold close remove_file_from_fdt
  simp only []
  split_ifs <;> simp [emit] <;> omega

@[simp] theorem emit_fdTable (e : Event) (s : State) : (emit e s).fdTable = s.fdTable := rfl

@[simp] theorem emit_fdIdx (e : Event) (s : State) : (emit e s).fdIdx = s.fdIdx := rfl

@[simp] theorem emit_files (e : Event) (s : State) : (emit e s).files = s.files := rfl

@[simp] theorem emit_stdin_count (e : Event) (s : State) :
    (emit e s).stdin_count = s.stdin_count := rfl

@[simp] theorem emit_stdout_count (e : Event) (s : State) :
    (emit e s).stdout_count = s.stdout_count := rfl

@[simp] theorem emit_trace (e : Event) (s : State) : (emit e s).trace = s.trace ++ [e] := rfl

@[simp] theorem setSlot_same (t : Nat → Nat) (k v : Nat) : setSlot t k v k = v := by
  simp [setSlot]

theorem setSlot_other (t : Nat → Nat) (k v i : Nat) (h : i ≠ k) : setSlot t k v i = t i := by
  simp [setSlot, h]

@[simp] theorem setFile_same (h : Nat → file) (p : Nat) (f : file) : setFile h p f p = f := by
  simp [setFile]

theorem setFile_other (h : Nat → file) (p q : Nat) (f : file) (hq : q ≠ p) :
    setFile h p f q = h q := by
  simp [setFile, hq]

@[simp] theorem remove_file_from_fdt_files (K : Config) (fd : Int) (s : State) :
    (remove_file_from_fdt K fd s).files = s.files := by
  unfold remove_file_from_fdt
  split <;> rfl

@[simp] theorem remove_file_from_fdt_trace (K : Config) (fd : Int) (s : State) :
    (remove_file_from_fdt K fd s).trace = s.trace := by
  unfold remove_file_from_fdt
  split <;> rfl

/-- A second store to the same slot overrides the first. -/
theorem setSlot_setSlot (t : Nat → Nat) (k a b : Nat) :
    setSlot (setSlot t k a) k b = setSlot t k b := by
  funext i
  unfold setSlot
  split <;> rfl

/-- What `add_file_to_fdt` does to the table: nothing when it returns -1,
otherwise it fills one slot that was empty. -/
theorem add_file_to_fdt_fdTable (K : Config) (f : Nat) (s : State) :
    ((add_file_to_fdt K f s).1 = -1 ∧ (add_file_to_fdt K f s).2.fdTable = s.fdTable) ∨
    (∃ i, s.fdIdx ≤ i ∧ i < K.FDCOUNT_LIMIT ∧ s.fdTable i = 0 ∧
      (add_file_to_fdt K f s).1 = (i : Int) ∧
      (add_file_to_fdt K f s).2.fdTable = setSlot s.fdTable i f ∧
      (add_file_to_fdt K f s).2.fdIdx = i) := by
  have hge := fdt_scan_ge K s.fdTable (K.FDCOUNT_LIMIT - s.fdIdx) s.fdIdx
  have hstop := fdt_scan_stop K s.fdTable (K.FDCOUNT_LIMIT - s.fdIdx) s.fdIdx (Nat.le_refl _)
  unfold add_file_to_fdt
  generalize fdt_scan K s.fdTable (K.FDCOUNT_LIMIT - s.fdIdx) s.fdIdx = idx at hge hstop
  by_cases hidx : idx ≥ K.FDCOUNT_LIMIT
  · simp [hidx]
  · have hlt : idx < K.FDCOUNT_LIMIT := by omega
    have hz : s.fdTable idx = 0 := by
      by_contra hne
      exact hstop ⟨hlt, hne⟩
    simp only [hidx, if_false]
    exact Or.inr ⟨idx, hge, hlt, hz, rfl, rfl, rfl⟩

/-- What a returning `open` does to the table: nothing, or it fills one slot
that was empty. -/
theorem sys_open_fdTable (K : Config) (X : Collab) (name : Nat) (s s1 : State) (v : Int)
    (h : sys_open K X name s = Result.ret v s1) :
    s1.fdTable = s.fdTable ∨
    (∃ i, i < K.FDCOUNT_LIMIT ∧ s.fdTable i = 0 ∧
      s1.fdTable = setSlot s.fdTable i X.filesys_open) := by
  unfold sys_open at h
  cases hc : check_address K name s with
  | exited s2 => simp [hc] at h
  | ret u s2 =>
    have hs2 : s2 = s := by
      unfold check_address exit at hc
      split_ifs at hc
      split at hc
      · cases hc
      · split at hc
        · cases hc
        · cases hc
          rfl
    subst hs2
    simp only [hc] at h
    by_cases hz : X.filesys_open = 0
    · simp only [hz, if_true] at h
      cases h
      exact Or.inl rfl
    · simp only [hz, if_false] at h
      injection h with _ hs
      subst hs
      rcases add_file_to_fdt_fdTable K X.filesys_open (emit (Event.filesys_open name) s2) with
        ⟨_, htab⟩ | ⟨i, _, hi, hzero, _, htab, _⟩
      · left
        split_ifs
        simp [htab]
      · right
        refine ⟨i, hi, hzero, ?_⟩
        split_ifs <;> simp [htab]

/-- What `dup2` onto an in-range `newfd` does to the table: nothing (an early
return), or it makes slot `newfd` hold the object that `oldfd` resolves to. -/
theorem dup2_fdTable (K : Config) (oldfd newfd : Int) (s : State)
    (h0 : 0 ≤ newfd) (h1 : newfd < (K.FDCOUNT_LIMIT : Int)) :
    (dup2 K oldfd newfd s).2.fdTable = s.fdTable ∨
    (find_file_by_fd K oldfd s ≠ 0 ∧
      (dup2 K oldfd newfd s).2.fdTable =
        setSlot s.fdTable newfd.toNat (find_file_by_fd K oldfd s)) := by
  unfold dup2
  simp only []
  by_cases hobj : find_file_by_fd K oldfd s = 0
  · simp [hobj]
  · by_cases heq : oldfd = newfd
    · subst heq
      simp [hobj]
    · simp only [hobj, heq, if_false]
      generalize hs1 : (if find_file_by_fd K oldfd s = STDIN then
          { s with stdin_count := s.stdin_count + 1 }
        else if find_file_by_fd K oldfd s = STDOUT then
          { s with stdout_count := s.stdout_count + 1 }
        else { s with
          files := setFile s.files (find_file_by_fd K oldfd s)
            ⟨(s.files (find_file_by_fd K oldfd s)).pos,
              (s.files (find_file_by_fd K oldfd s)).dupCount + 1⟩ }) = s1
      have ht : s1.fdTable = s.fdTable := by
        rw [← hs1]
        split_ifs <;> rfl
      right
      refine ⟨hobj, ?_⟩
      simp only [h0, h1, and_self, if_true]
      rcases close_fdTable K newfd s1 with hc | ⟨_, _, hc⟩
      · rw [hc, ht]
      · rw [hc, setSlot_setSlot, ht]

/-- A `dup2` that gets past its two early returns onto an in-range `newfd`
makes slot `newfd` hold the object of `oldfd` and changes no other slot. -/
theorem dup2_fdTable_of_ne (K : Config) (oldfd newfd : Int) (s : State)
    (hobj : find_file_by_fd K oldfd s ≠ 0) (hne : oldfd ≠ newfd)
    (h0 : 0 ≤ newfd) (h1 : newfd < (K.FDCOUNT_LIMIT : Int)) :
    (dup2 K oldfd newfd s).2.fdTable =
      setSlot s.fdTable newfd.toNat (find_file_by_fd K oldfd s) := by
  unfold dup2
  simp only [hobj, hne, if_false]
  generalize hs1 : (if find_file_by_fd K oldfd s = STDIN then
      { s with stdin_count := s.stdin_count + 1 }
    else if find_file_by_fd K oldfd s = STDOUT then
      { s with stdout_count := s.stdout_count + 1 }
    else { s with
      files := setFile s.files (find_file_by_fd K oldfd s)
        ⟨(s.files (find_file_by_fd K oldfd s)).pos,
          (s.files (find_file_by_fd K oldfd s)).dupCount + 1⟩ }) = s1
  have ht : s1.fdTable = s.fdTable := by
    rw [← hs1]
    split_ifs <;> rfl
  simp only [h0, h1, and_self, if_true]
  rcases close_fdTable K newfd s1 with hc | ⟨_, _, hc⟩
  · rw [hc, ht]
  · rw [hc, setSlot_setSlot, ht]

/-- One call that respects `console_target_ok` keeps a console sentinel in
slot 0 and in slot 1. -/
theorem step_keeps_console_slots (K : Config) (c : Call) (s s1 : State)
    (hok : console_target_ok K s c) (hstep : step K c s = some s1)
    (h0 : s.fdTable 0 = STDIN ∨ s.fdTable 0 = STDOUT)
    (h1 : s.fdTable 1 = STDIN ∨ s.fdTable 1 = STDOUT) :
    (s1.fdTable 0 = STDIN ∨ s1.fdTable 0 = STDOUT) ∧
    (s1.fdTable 1 = STDIN ∨ s1.fdTable 1 = STDOUT) := by
  have hn0 : s.fdTable 0 ≠ 0 := by
    rcases h0 with h | h <;> rw [h] <;> decide
  have hn1 : s.fdTable 1 ≠ 0 := by
    rcases h1 with h | h <;> rw [h] <;> decide
  cases c with
  | «open» X name =>
    unfold step at hstep
    cases hr : sys_open K X name s with
    | exited s2 => simp [hr] at hstep
    | ret v s2 =>
      simp only [hr, Option.some.injEq] at hstep
      subst hstep
      rcases sys_open_fdTable K X name s s2 v hr with ht | ⟨i, _, hz, ht⟩
      · rw [ht]
        exact ⟨h0, h1⟩
      · have hi0 : i ≠ 0 := fun h => hn0 (h ▸ hz)
        have hi1 : i ≠ 1 := fun h => hn1 (h ▸ hz)
        rw [ht]
        simp only [setSlot, if_neg (Ne.symm hi0), if_neg (Ne.symm hi1)]
        exact ⟨h0, h1⟩
  | close fd =>
    simp only [step, Option.some.injEq] at hstep
    subst hstep
    rcases close_fdTable K fd s with ht | ⟨hfd, _, ht⟩
    · rw [ht]
      exact ⟨h0, h1⟩
    · have hk0 : ¬ (0 = fd.toNat) := by omega
      have hk1 : ¬ (1 = fd.toNat) := by omega
      rw [ht]
      simp only [setSlot, if_neg hk0, if_neg hk1]
      exact ⟨h0, h1⟩
  | dup2 oldfd newfd =>
    simp only [step, Option.some.injEq] at hstep
    subst hstep
    have hlo : 0 ≤ newfd := hok.1.1
    rcases dup2_fdTable K oldfd newfd s hok.1.1 hok.1.2 with ht | ⟨hobj, ht⟩
    · rw [ht]
      exact ⟨h0, h1⟩
    · rw [ht]
      have hsent : (newfd = 0 ∨ newfd = 1) →
          (find_file_by_fd K oldfd s = STDIN ∨ find_file_by_fd K oldfd s = STDOUT) := by
        intro hn
        have hle : find_file_by_fd K oldfd s ≤ 2 := hok.2 hn
        unfold STDIN STDOUT
        omega
      by_cases hn0 : newfd = 0
      · subst hn0
        simp only [setSlot, Int.toNat_zero, if_true]
        exact ⟨hsent (Or.inl rfl), by simpa using h1⟩
      · by_cases hn1 : newfd = 1
        · subst hn1
          have e1 : (1 : Int).toNat = 1 := rfl
          simp only [setSlot, e1, if_true]
          exact ⟨by simpa using h0, hsent (Or.inr rfl)⟩
        · have hk0 : ¬ (0 = newfd.toNat) := by omega
          have hk1 : ¬ (1 = newfd.toNat) := by omega
          simp only [setSlot, if_neg hk0, if_neg hk1]
          exact ⟨h0, h1⟩

/-- C6, as stated, fails: `open` followed by `dup2 (2, 0)` is a run from the
initial table after which slot 0 holds the real file object `0x8004100000`. -/
theorem dup2_puts_file_in_slot_zero :
    fresh.fdTable 0 = STDIN ∧ fresh.fdTable 1 = STDOUT ∧ (∀ i, 2 ≤ i → fresh.fdTable i = 0) ∧
    ∃ s, Reach K0 any_call fresh s ∧ s.fdTable 0 = 0x8004100000 ∧
      s.fdTable 0 ≠ 0 ∧ s.fdTable 0 ≠ STDIN ∧ s.fdTable 0 ≠ STDOUT := by
  refine ⟨rfl, rfl, ?_, ?_⟩
  · intro i hi
    have h0 : i ≠ 0 := by omega
    have h1 : i ≠ 1 := by omega
    simp [fresh, h0, h1]
  · obtain ⟨s1, hopen, h2⟩ : ∃ s1, sys_open K0 X0 0x400000 fresh = Result.ret 2 s1 ∧
        s1.fdTable 2 = 0x8004100000 := by
      simp [sys_open, check_address, add_file_to_fdt, fdt_scan, setSlot, K0, X0, fresh]
    have hstep1 : step K0 (Call.open X0 0x400000) fresh = some s1 := by
      simp [step, hopen]
    have hr1 : Reach K0 any_call fresh s1 := Reach.next Reach.init trivial hstep1
    have hr2 : Reach K0 any_call fresh (dup2 K0 2 0 s1).2 :=
      Reach.next hr1 trivial (c := Call.dup2 2 0) rfl
    have hval : (dup2 K0 2 0 s1).2.fdTable 0 = 0x8004100000 := by
      have e2 : (2 : Int).toNat = 2 := rfl
      have hf : find_file_by_fd K0 2 s1 = 0x8004100000 := by
        simp [find_file_by_fd, K0, e2, h2]
      have ht := dup2_fdTable_of_ne K0 2 0 s1 (by rw [hf]; decide) (by decide) (by decide)
        (by decide)
      rw [ht, hf]
      exact setSlot_same _ _ _
    refine ⟨_, hr2, hval, ?_, ?_, ?_⟩ <;> rw [hval] <;> decide

/-- C6, amended: from a table with the console-input sentinel in slot 0 and the
console-output sentinel in slot 1, every run of `open`, `close` and `dup2`
calls in which each `dup2` names a `newfd` inside `[0, FDCOUNT_LIMIT)` and each
`dup2` onto descriptor 0 or 1 duplicates a descriptor holding no real file
ends with slots 0 and 1 each holding nothing or a console sentinel, never a
real open-file object. -/
theorem console_slots_hold_no_file (K : Config) (s0 s : State)
    (h0 : s0.fdTable 0 = STDIN) (h1 : s0.fdTable 1 = STDOUT)
    (hr : Reach K (console_target_ok K) s0 s) :
    (s.fdTable 0 = 0 ∨ s.fdTable 0 = STDIN ∨ s.fdTable 0 = STDOUT) ∧
    (s.fdTable 1 = 0 ∨ s.fdTable 1 = STDIN ∨ s.fdTable 1 = STDOUT) := by
  have key : (s.fdTable 0 = STDIN ∨ s.fdTable 0 = STDOUT) ∧
      (s.fdTable 1 = STDIN ∨ s.fdTable 1 = STDOUT) := by
    induction hr with
    | init => exact ⟨Or.inl h0, Or.inr h1⟩
    | next _ hok hstep ih => exact step_keeps_console_slots K _ _ _ hok hstep ih.1 ih.2
  exact ⟨Or.inr key.1, Or.inr key.2⟩

/-- Witness for C6: a fresh process after `dup2 (1, 0)`. -/
theorem console_slots_hold_no_file_witness :
    fresh.fdTable 0 = STDIN ∧ fresh.fdTable 1 = STDOUT ∧
    Reach K0 (console_target_ok K0) fresh (dup2 K0 1 0 fresh).2 ∧
    (((dup2 K0 1 0 fresh).2.fdTable 0 = 0 ∨ (dup2 K0 1 0 fresh).2.fdTable 0 = STDIN ∨
        (dup2 K0 1 0 fresh).2.fdTable 0 = STDOUT) ∧
      ((dup2 K0 1 0 fresh).2.fdTable 1 = 0 ∨ (dup2 K0 1 0 fresh).2.fdTable 1 = STDIN ∨
        (dup2 K0 1 0 fresh).2.fdTable 1 = STDOUT)) := by
  have hok : console_target_ok K0 fresh (Call.dup2 1 0) := by
    refine ⟨⟨by decide, by decide⟩, ?_⟩
    intro _
    simp [find_file_by_fd, K0, fresh, STDOUT]
  have hr : Reach K0 (console_target_ok K0) fresh (dup2 K0 1 0 fresh).2 :=
    Reach.next Reach.init hok rfl
  exact ⟨rfl, rfl, hr, console_slots_hold_no_file K0 fresh _ rfl rfl hr⟩

/-- Closing a descriptor above 1 that holds a real file with duplication
counter 0 clears the slot and releases the object, under the lock. -/
theorem close_real_last (K : Config) (fd : Int) (s : State) (f : Nat)
    (hfd : 1 < fd) (hf : find_file_by_fd K fd s = f) (hreal : 2 < f)
    (hd : (s.files f).dupCount = 0) :
    (close K fd s).fdTable = setSlot s.fdTable fd.toNat 0 ∧
    (close K fd s).files = s.files ∧
    (close K fd s).fdIdx = s.fdIdx ∧
    (close K fd s).stdin_count = s.stdin_count ∧
    (close K fd s).stdout_count = s.stdout_count ∧
    (close K fd s).trace =
      s.trace ++ [Event.lock_acquire, Event.file_close f, Event.lock_release] := by
  have hrange : ¬ (fd < 0 ∨ fd ≥ (K.FDCOUNT_LIMIT : Int)) := by
    intro h
    rw [find_file_by_fd_out_of_range K fd s h] at hf
    omega
  have h0 : ¬ f = 0 := by omega
  have h1 : ¬ f = STDIN := by unfold STDIN; omega
  have h2 : ¬ f = STDOUT := by unfold STDOUT; omega
  have hfd0 : ¬ fd = 0 := by omega
  have hfd1 : ¬ fd = 1 := by omega
  have hle : ¬ (fd ≤ 1 ∨ f ≤ 2) := by omega
  unfold close
  simp only [hf, h0, h1, h2, hfd0, hfd1, hle, or_self, if_false]
  unfold remove_file_from_fdt
  simp [hrange, hd]

/-- Closing a descriptor above 1 that holds a real file with a positive
duplication counter clears the slot and decrements the counter; the object is
not released. -/
theorem close_real_shared (K : Config) (fd : Int) (s : State) (f : Nat)
    (hfd : 1 < fd) (hf : find_file_by_fd K fd s = f) (hreal : 2 < f)
    (hd : 0 < (s.files f).dupCount) :
    (close K fd s).fdTable = setSlot s.fdTable fd.toNat 0 ∧
    (close K fd s).files =
      setFile s.files f ⟨(s.files f).pos, (s.files f).dupCount - 1⟩ ∧
    (close K fd s).fdIdx = s.fdIdx ∧
    (close K fd s).stdin_count = s.stdin_count ∧
    (close K fd s).stdout_count = s.stdout_count ∧
    (close K fd s).trace = s.trace ++ [Event.lock_acquire, Event.lock_release] := by
  have hrange : ¬ (fd < 0 ∨ fd ≥ (K.FDCOUNT_LIMIT : Int)) := by
    intro h
    rw [find_file_by_fd_out_of_range K fd s h] at hf
    omega
  have h0 : ¬ f = 0 := by omega
  have h1 : ¬ f = STDIN := by unfold STDIN; omega
  have h2 : ¬ f = STDOUT := by unfold STDOUT; omega
  have hfd0 : ¬ fd = 0 := by omega
  have hfd1 : ¬ fd = 1 := by omega
  have hle : ¬ (fd ≤ 1 ∨ f ≤ 2) := by omega
  have hdz : ¬ (s.files f).dupCount = 0 := by omega
  unfold close
  simp only [hf, h0, h1, h2, hfd0, hfd1, hle, or_self, if_false]
  unfold remove_file_from_fdt
  simp only [hrange, if_false, emit_files, hdz, gt_iff_lt, hd, if_true, emit_fdTable,
    emit_fdIdx, emit_stdin_count, emit_stdout_count, emit_trace, List.append_assoc,
    List.singleton_append, and_self]

/-- Closing a descriptor above 1 that holds an object whose duplication
counter is negative clears the slot and does nothing else under the lock. -/
theorem close_real_negative (K : Config) (fd : Int) (s : State) (f : Nat)
    (hfd : 1 < fd) (hf : find_file_by_fd K fd s = f) (hreal : 2 < f)
    (hd : (s.files f).dupCount < 0) :
    (close K fd s).fdTable = setSlot s.fdTable fd.toNat 0 ∧
    (close K fd s).files = s.files ∧
    (close K fd s).trace = s.trace ++ [Event.lock_acquire, Event.lock_release] := by
  have hrange : ¬ (fd < 0 ∨ fd ≥ (K.FDCOUNT_LIMIT : Int)) := by
    intro h
    rw [find_file_by_fd_out_of_range K fd s h] at hf
    omega
  have h0 : ¬ f = 0 := by omega
  have h1 : ¬ f = STDIN := by unfold STDIN; omega
  have h2 : ¬ f = STDOUT := by unfold STDOUT; omega
  have hfd0 : ¬ fd = 0 := by omega
  have hfd1 : ¬ fd = 1 := by omega
  have hle : ¬ (fd ≤ 1 ∨ f ≤ 2) := by omega
  have hdz : ¬ (s.files f).dupCount = 0 := by omega
  have hdp : ¬ (s.files f).dupCount > 0 := by omega
  unfold close
  simp only [hf, h0, h1, h2, hfd0, hfd1, hle, or_self, if_false]
  unfold remove_file_from_fdt
  simp [hrange, hdz, hdp]

/-- Whatever `close (fd)` appends to the trace, it releases no object other
than the one `fd` resolves to, and it changes no other file object. -/
theorem close_spares_others (K : Config) (fd : Int) (s : State) (p : Nat)
    (hp : p ≠ find_file_by_fd K fd s) :
    (close K fd s).files p = s.files p ∧
    ∃ evs, (close K fd s).trace = s.trace ++ evs ∧ Event.file_close p ∉ evs := by
  by_cases hle : find_file_by_fd K fd s = 0 ∨ fd ≤ 1 ∨ find_file_by_fd K fd s ≤ 2
  · have hsame : (close K fd s).files = s.files ∧ (close K fd s).trace = s.trace := by
      unfold close
      by_cases hz : find_file_by_fd K fd s = 0
      · simp [hz]
      · have hle2 : fd ≤ 1 ∨ find_file_by_fd K fd s ≤ 2 := by omega
        simp only [hz, hle2, if_true, if_false]
        split_ifs <;> exact ⟨rfl, rfl⟩
    rw [hsame.1, hsame.2]
    exact ⟨rfl, [], by simp, by simp⟩
  · have hfd : 1 < fd := by omega
    have hreal : 2 < find_file_by_fd K fd s := by omega
    have hfile : Event.file_close p ≠ Event.file_close (find_file_by_fd K fd s) := by
      intro h
      injection h with h
      exact hp h
    rcases lt_trichotomy (s.files (find_file_by_fd K fd s)).dupCount 0 with hd | hd | hd
    · obtain ⟨_, hfiles, htr⟩ := close_real_negative K fd s _ hfd rfl hreal hd
      rw [hfiles, htr]
      exact ⟨rfl, _, rfl, by simp⟩
    · obtain ⟨_, hfiles, _, _, _, htr⟩ := close_real_last K fd s _ hfd rfl hreal hd
      rw [hfiles, htr]
      exact ⟨rfl, _, rfl, by simp [hfile]⟩
    · obtain ⟨_, hfiles, _, _, _, htr⟩ := close_real_shared K fd s _ hfd rfl hreal hd
      rw [hfiles, htr]
      exact ⟨setFile_other _ _ _ _ hp, _, rfl, by simp⟩

/-- A descriptor that resolves to an object is in range. -/
theorem find_file_by_fd_range (K : Config) (fd : Int) (s : State)
    (h : find_file_by_fd K fd s ≠ 0) : 0 ≤ fd ∧ fd < (K.FDCOUNT_LIMIT : Int) := by
  by_contra hn
  exact h (find_file_by_fd_out_of_range K fd s (by omega))

/-- The lookup `find_file_by_fd` reads nothing but the table. -/
theorem find_file_by_fd_congr (K : Config) (fd : Int) (s s1 : State)
    (h : s1.fdTable = s.fdTable) : find_file_by_fd K fd s1 = find_file_by_fd K fd s := by
  unfold find_file_by_fd
  rw [h]

/-- The parts of `dup2` that concern a real file `f` duplicated onto an
in-range descriptor that does not already hold `f`. -/
theorem dup2_real (K : Config) (a b : Int) (s : State) (f : Nat)
    (hf : find_file_by_fd K a s = f) (hreal : 2 < f) (hab : a ≠ b)
    (hb0 : 0 ≤ b) (hb1 : b < (K.FDCOUNT_LIMIT : Int)) (hbf : find_file_by_fd K b s ≠ f) :
    (dup2 K a b s).1 = b ∧
    (dup2 K a b s).2.files f = ⟨(s.files f).pos, (s.files f).dupCount + 1⟩ ∧
    ∃ evs, (dup2 K a b s).2.trace = s.trace ++ evs ∧ Event.file_close f ∉ evs := by
  have h0 : ¬ f = 0 := by omega
  have h1 : ¬ f = STDIN := by unfold STDIN; omega
  have h2 : ¬ f = STDOUT := by unfold STDOUT; omega
  unfold dup2
  simp only [hf, h0, h1, h2, hab, if_false, hb0, hb1, and_self, if_true]
  generalize hs1 : ({ s with
      files := setFile s.files f ⟨(s.files f).pos, (s.files f).dupCount + 1⟩ } : State) = s1
  have ht : s1.fdTable = s.fdTable := by rw [← hs1]
  have htr : s1.trace = s.trace := by rw [← hs1]
  have hfl : s1.files f = ⟨(s.files f).pos, (s.files f).dupCount + 1⟩ := by
    rw [← hs1]
    exact setFile_same _ _ _
  have hne : f ≠ find_file_by_fd K b s1 := by
    rw [find_file_by_fd_congr K b s s1 ht]
    exact fun h => hbf h.symm
  obtain ⟨hfiles, evs, hevs, hnot⟩ := close_spares_others K b s1 f hne
  refine ⟨trivial, ?_, evs, ?_, hnot⟩
  · simp only [hfiles, hfl]
  · simp only [hevs, htr]

/-- Two descriptors above 1 share the real file `f`, whose duplication
counter is `d + 1`: closing one leaves the other resolving to `f`, brings the
counter to `d` and releases nothing; if `d = 0`, closing the other one then
releases `f`. -/
theorem close_one_of_two (K : Config) (x y : Int) (s : State) (f : Nat) (d : Int)
    (hx : 1 < x) (hy : 1 < y) (hxy : x ≠ y)
    (hfx : find_file_by_fd K x s = f) (hfy : find_file_by_fd K y s = f) (hreal : 2 < f)
    (hd : (s.files f).dupCount = d + 1) (hd0 : 0 ≤ d) :
    find_file_by_fd K x (close K x s) = 0 ∧
    find_file_by_fd K y (close K x s) = f ∧
    ((close K x s).files f).dupCount = d ∧
    (close K x s).trace = s.trace ++ [Event.lock_acquire, Event.lock_release] ∧
    (d = 0 →
      find_file_by_fd K y (close K y (close K x s)) = 0 ∧
      (close K y (close K x s)).trace =
        (close K x s).trace ++ [Event.lock_acquire, Event.file_close f, Event.lock_release]) := by
  have hxr := find_file_by_fd_range K x s (by rw [hfx]; omega)
  have hyr := find_file_by_fd_range K y s (by rw [hfy]; omega)
  have hne : y.toNat ≠ x.toNat := by omega
  obtain ⟨htab, hfiles, _, _, _, htr⟩ :=
    close_real_shared K x s f hx hfx hreal (by rw [hd]; omega)
  have hfx1 : find_file_by_fd K x (close K x s) = 0 := by
    rw [find_file_by_fd_in_range K x _ hxr.1 hxr.2, htab]
    exact setSlot_same _ _ _
  have hfy1 : find_file_by_fd K y (close K x s) = f := by
    rw [find_file_by_fd_in_range K y _ hyr.1 hyr.2, htab, setSlot_other _ _ _ _ hne,
      ← find_file_by_fd_in_range K y s hyr.1 hyr.2]
    exact hfy
  have hcnt : ((close K x s).files f).dupCount = d := by
    rw [hfiles, setFile_same, hd]
    simp
  refine ⟨hfx1, hfy1, hcnt, htr, ?_⟩
  intro hdz
  obtain ⟨htab2, _, _, _, _, htr2⟩ :=
    close_real_last K y (close K x s) f hy hfy1 hreal (by rw [hcnt]; exact hdz)
  refine ⟨?_, htr2⟩
  rw [find_file_by_fd_in_range K y _ hyr.1 hyr.2, htab2]
  exact setSlot_same _ _ _

/-- C8 fails on the code: in a fresh process `close (0)` lowers the
console-input attachment counter from 1 to 0 and returns before the table is
touched, so descriptor 0 still resolves to the sentinel; a second `close (0)`
finds it again and takes the counter to -1. Nothing is released. -/
theorem close_leaves_console_slot_occupied :
    find_file_by_fd K0 0 fresh = STDIN ∧ fresh.stdin_count = 1 ∧
    find_file_by_fd K0 0 (close K0 0 fresh) = STDIN ∧ STDIN ≠ 0 ∧
    (close K0 0 fresh).stdin_count = 0 ∧
    (close K0 0 (close K0 0 fresh)).stdin_count = -1 ∧
    (close K0 0 fresh).trace = [] := by
  simp [close, find_file_by_fd, K0, fresh, STDIN]

/-- The scan does not move when the slot under the cursor is empty. -/
theorem fdt_scan_here (K : Config) (t : Nat → Nat) (n i : Nat) (h : t i = 0) :
    fdt_scan K t n i = i := by
  cases n with
  | zero => rfl
  | succ n => simp [fdt_scan, h]

/-- The allocator `add_file_to_fdt` touches neither the file objects nor the trace. -/
theorem add_file_to_fdt_files_trace (K : Config) (f : Nat) (s : State) :
    (add_file_to_fdt K f s).2.files = s.files ∧ (add_file_to_fdt K f s).2.trace = s.trace := by
  unfold add_file_to_fdt
  simp only []
  split_ifs <;> exact ⟨rfl, rfl⟩

/-- C10: when `add_file_to_fdt (f)` returns a descriptor `fd ≥ 2` for a real
file `f` whose duplication counter is 0, an immediately following `close (fd)`
empties slot `fd` and releases `f` exactly once (the only events are the lock
pair around one `file_close (f)`), and the next `add_file_to_fdt (g)` returns
the same `fd`. -/
theorem close_after_add_frees_descriptor (K : Config) (f : Nat) (s : State)
    (hfd : 2 ≤ (add_file_to_fdt K f s).1) (hreal : 2 < f)
    (hd : (s.files f).dupCount = 0) :
    find_file_by_fd K (add_file_to_fdt K f s).1
      (close K (add_file_to_fdt K f s).1 (add_file_to_fdt K f s).2) = 0 ∧
    (close K (add_file_to_fdt K f s).1 (add_file_to_fdt K f s).2).trace =
      (add_file_to_fdt K f s).2.trace ++
        [Event.lock_acquire, Event.file_close f, Event.lock_release] ∧
    ∀ g, (add_file_to_fdt K g
      (close K (add_file_to_fdt K f s).1 (add_file_to_fdt K f s).2)).1 =
        (add_file_to_fdt K f s).1 := by
  rcases add_file_to_fdt_fdTable K f s with ⟨hneg, _⟩ | ⟨i, _, hi, _, hret, htab, hidx⟩
  · omega
  · have hft := add_file_to_fdt_files_trace K f s
    generalize add_file_to_fdt K f s = r at hfd hret htab hidx hft
    obtain ⟨fd, s1⟩ := r
    simp only at hfd hret htab hidx hft ⊢
    subst hret
    have hi0 : (0 : Int) ≤ (i : Int) := Int.natCast_nonneg i
    have hil : (i : Int) < (K.FDCOUNT_LIMIT : Int) := by omega
    have hfind : find_file_by_fd K (i : Int) s1 = f := by
      rw [find_file_by_fd_in_range K _ _ hi0 hil, htab, Int.toNat_natCast, setSlot_same]
    obtain ⟨hctab, _, hcidx, _, _, hctr⟩ :=
      close_real_last K (i : Int) s1 f (by omega) hfind hreal (by rw [hft.1]; exact hd)
    have hslot : (close K (i : Int) s1).fdTable i = 0 := by
      rw [hctab, Int.toNat_natCast, setSlot_same]
    refine ⟨?_, hctr, ?_⟩
    · rw [find_file_by_fd_in_range K _ _ hi0 hil, Int.toNat_natCast]
      exact hslot
    · intro g
      have hscan : fdt_scan K (close K (i : Int) s1).fdTable
          (K.FDCOUNT_LIMIT - (close K (i : Int) s1).fdIdx) (close K (i : Int) s1).fdIdx = i := by
        rw [hcidx, hidx]
        exact fdt_scan_here K _ _ i hslot
      unfold add_file_to_fdt
      simp only [hscan]
      have hnot : ¬ i ≥ K.FDCOUNT_LIMIT := by omega
      simp only [hnot, if_false]

/-- Witness for C10: allocating the object `0x8004100000` in a fresh process
yields descriptor 2. -/
theorem close_after_add_frees_descriptor_witness :
    (add_file_to_fdt K0 0x8004100000 fresh).1 = 2 ∧
    (fresh.files 0x8004100000).dupCount = 0 ∧
    find_file_by_fd K0 2 (close K0 2 (add_file_to_fdt K0 0x8004100000 fresh).2) = 0 ∧
    (close K0 2 (add_file_to_fdt K0 0x8004100000 fresh).2).trace =
      [Event.lock_acquire, Event.file_close 0x8004100000, Event.lock_release] ∧
    (add_file_to_fdt K0 0x8004100040
      (close K0 2 (add_file_to_fdt K0 0x8004100000 fresh).2)).1 = 2 := by
  have hret : (add_file_to_fdt K0 0x8004100000 fresh).1 = 2 := by
    simp [add_file_to_fdt, fdt_scan, K0, fresh]
  have h := close_after_add_frees_descriptor K0 0x8004100000 fresh (by rw [hret]) (by decide) rfl
  rw [hret] at h
  have htr : (add_file_to_fdt K0 0x8004100000 fresh).2.trace = [] :=
    (add_file_to_fdt_files_trace K0 0x8004100000 fresh).2
  rw [htr] at h
  exact ⟨hret, rfl, h.1, h.2.1, h.2.2 _⟩

/-- C11: when descriptor `a` resolves to an open file (a console sentinel or a
real file), `dup2 (a, a)` returns `a` and the whole state is unchanged: table,
attachment counters and every duplication counter. -/
theorem dup2_same_descriptor_is_noop (K : Config) (a : Int) (s : State)
    (h : find_file_by_fd K a s ≠ 0) : dup2 K a a s = (a, s) := by
  simp [dup2, h]

/-- Witness for C11: descriptor 1 of a fresh process. -/
theorem dup2_same_descriptor_is_noop_witness :
    find_file_by_fd K0 1 fresh ≠ 0 ∧ dup2 K0 1 1 fresh = (1, fresh) := by
  have h : find_file_by_fd K0 1 fresh ≠ 0 := by
    simp [find_file_by_fd, K0, fresh, STDOUT]
  exact ⟨h, dup2_same_descriptor_is_noop K0 1 fresh h⟩

/-- C12 fails on the code: after `dup2 (1, 5)` in a fresh process, descriptor 5
holds the console-output sentinel, and `read (5, buffer, 8)` on the valid
writable buffer `0x400000` calls `file_read` on the sentinel under the lock and
returns what `file_read` returns (here 0), not -1. -/
theorem read_of_duplicated_console_output_calls_file_read :
    find_file_by_fd K0 5 (dup2 K0 1 5 fresh).2 = STDOUT ∧
    X0.file_read ≠ -1 ∧
    ∃ s1, read K0 X0 5 0x400000 8 (dup2 K0 1 5 fresh).2 = Result.ret X0.file_read s1 ∧
      s1.trace = [Event.lock_acquire, Event.file_read STDOUT 0x400000 8, Event.lock_release] := by
  simp [read, check_address, check_writable_addr, dup2, close, find_file_by_fd, emit, setSlot,
    K0, X0, fresh, STDIN, STDOUT]

/-! ## The mapped-region manager -/

/-- C13: when `addr` is not a multiple of `PGSIZE`, `mmap` returns `NULL` whatever
the other arguments and the state are; `do_mmap` is not called and the state
is unchanged. -/
theorem mmap_rejects_misaligned_addr (K : Config) (X : Collab) (addr length : Nat)
    (writable fd offset : Int) (s : State) (h : addr % K.PGSIZE ≠ 0) :
    mmap K X addr length writable fd offset s = some (0, s) := by
  simp [mmap, h]

/-- Witness for C13: the address `0x10000001`. -/
theorem mmap_rejects_misaligned_addr_witness :
    0x10000001 % K0.PGSIZE ≠ 0 ∧ mmap K0 X0 0x10000001 4096 1 2 0 opened = some (0, opened) :=
  ⟨by decide, mmap_rejects_misaligned_addr K0 X0 0x10000001 4096 1 2 0 opened (by decide)⟩

/-- C14 fails on the code: `addr = 0x10000000` is a page-aligned user address
and `length = 2 ^ 64 - 0x1000` makes `addr + length` overflow, but the sum wraps
to the nonzero user address `0xffff000`, both range tests pass, the page loop
runs zero times, and `do_mmap` is called for descriptor 2. -/
theorem mmap_overflow_reaches_do_mmap :
    0x10000000 % K0.PGSIZE = 0 ∧ K0.is_user_vaddr 0x10000000 = true ∧
    0x10000000 + (2 ^ 64 - 0x1000) ≥ 2 ^ 64 ∧
    u64 (0x10000000 + (2 ^ 64 - 0x1000)) = 0xffff000 ∧
    ∃ s1, mmap K0 X0 0x10000000 (2 ^ 64 - 0x1000) 1 2 0 opened = some (0x10000000, s1) ∧
      s1.trace = [Event.do_mmap 0x10000000 (2 ^ 64 - 0x1000) 1 0x8004100000 0] := by
  refine ⟨by decide, by simp [K0], by norm_num, by norm_num [u64], ?_⟩
  simp [mmap, mmap_scan, do_mmap, find_file_by_fd, emit, u64, K0, X0, opened, fresh]

/-- C15 fails on the code: in a fresh process descriptor 0 holds the
console-input sentinel, the request `mmap (0x10000000, 4096, 0, 0, 0)` passes
every argument check, and `do_mmap` is called with the sentinel as its file;
the value returned is the mapping address, not `NULL`. -/
theorem mmap_of_console_descriptor_reaches_do_mmap :
    find_file_by_fd K0 0 fresh = STDIN ∧
    ∃ s1, mmap K0 X0 0x10000000 4096 0 0 0 fresh = some (0x10000000, s1) ∧
      s1.trace = [Event.do_mmap 0x10000000 4096 0 STDIN 0] := by
  simp [mmap, mmap_scan, do_mmap, find_file_by_fd, emit, u64, K0, X0, fresh, STDIN]

/-- C16 fails on the code: the first request maps `[0x10000000, 0x10001000)`
and succeeds; the second, at `0xffff000` with `length = 2 ^ 64 - 0x1000`, covers
the page `0x10000000` as well, but `addr + length` wraps to `0xfffe000`, the
page loop runs zero times, and `do_mmap` is called a second time. -/
theorem mmap_overlap_missed_on_overflow :
    ∃ s1, mmap K0 X0 0x10000000 4096 1 2 0 opened = some (0x10000000, s1) ∧
      s1.spt 0x10000000 = some ⟨true⟩ ∧
      (0xffff000 ≤ 0x10000000 ∧ 0x10000000 < 0xffff000 + (2 ^ 64 - 0x1000)) ∧
      ∃ s2, mmap K0 X0 0xffff000 (2 ^ 64 - 0x1000) 0 2 0 s1 = some (0xffff000, s2) ∧
        s2.trace = [Event.do_mmap 0x10000000 4096 1 0x8004100000 0,
          Event.do_mmap 0xffff000 (2 ^ 64 - 0x1000) 0 0x8004100000 0] := by
  simp [mmap, mmap_scan, do_mmap, find_file_by_fd, emit, u64, K0, X0, opened, fresh]

/-- The page loop of `mmap` finds a mapped page `i + k * PGSIZE` below `stop`,
provided the index cannot wrap (`stop` lies a page below `2 ^ 64`). -/
theorem mmap_scan_hit (K : Config) (spt : Nat → Option page) (stop k : Nat) :
    ∀ n i, k < n → i + k * K.PGSIZE < stop → stop + K.PGSIZE ≤ 2 ^ 64 →
      spt (i + k * K.PGSIZE) ≠ none → mmap_scan K spt stop n i = some true := by
  induction k with
  | zero =>
    intro n i hn hlt _ hspt
    cases n with
    | zero => omega
    | succ n =>
      have hi : i < stop := by omega
      have hsome : (spt i).isSome = true := by
        rw [Option.isSome_iff_ne_none]
        simpa using hspt
      simp [mmap_scan, hi, hsome]
  | succ k ih =>
    intro n i hn hlt hstop hspt
    cases n with
    | zero => omega
    | succ n =>
      have hexp : i + (k + 1) * K.PGSIZE = i + K.PGSIZE + k * K.PGSIZE := by ring
      have hi : i < stop := by
        have : i ≤ i + (k + 1) * K.PGSIZE := Nat.le_add_right _ _
        omega
      unfold mmap_scan
      simp only [hi, if_true]
      split
      · rfl
      · have hwrap : u64 (i + K.PGSIZE) = i + K.PGSIZE := by
          unfold u64
          exact Nat.mod_eq_of_lt (by omega)
        rw [hwrap]
        exact ih n (i + K.PGSIZE) (by omega) (by rw [← hexp]; exact hlt) hstop
          (by rw [← hexp]; exact hspt)

/-- Away from the overflow of C14 and C16 the overlap test works: let the
first request have been installed by a successful `do_mmap`, and let the
second be page-aligned with `addr + length` below `2 ^ 64`, in a configuration
whose user addresses end at least a page below `2 ^ 64`. If some address has
its page in both ranges, the second `mmap` returns `NULL`, `do_mmap` is not
called and the state is unchanged. -/
theorem mmap_overlap_rejected_without_overflow (K : Config) (X1 X2 : Collab)
    (addr1 length1 addr2 length2 f1 : Nat) (w1 w2 fd2 off1 off2 : Int) (s : State)
    (hpg : 0 < K.PGSIZE)
    (huser : ∀ a, K.is_user_vaddr a = true → a + K.PGSIZE ≤ 2 ^ 64)
    (hok : X1.do_mmap_ok = true)
    (hsum : addr2 + length2 < 2 ^ 64)
    (a : Nat)
    (hin1 : addr1 / K.PGSIZE ≤ a / K.PGSIZE ∧ a / K.PGSIZE * K.PGSIZE < addr1 + length1)
    (hin2 : addr2 / K.PGSIZE ≤ a / K.PGSIZE ∧ a / K.PGSIZE * K.PGSIZE < addr2 + length2) :
    mmap K X2 addr2 length2 w2 fd2 off2 (do_mmap K X1 addr1 length1 w1 f1 off1 s).2 =
      some (0, (do_mmap K X1 addr1 length1 w1 f1 off1 s).2) := by
  generalize hs1 : (do_mmap K X1 addr1 length1 w1 f1 off1 s).2 = s1
  have hspt : s1.spt (a / K.PGSIZE * K.PGSIZE) ≠ none := by
    rw [← hs1]
    unfold do_mmap
    have hdiv : a / K.PGSIZE * K.PGSIZE / K.PGSIZE = a / K.PGSIZE :=
      Nat.mul_div_cancel _ hpg
    simp [hok, hdiv, hin1]
  unfold mmap
  split_ifs with hbad
  · rfl
  · have hal : addr2 % K.PGSIZE = 0 := by
      by_contra hne
      exact hbad (Or.inr (Or.inr (Or.inl hne)))
    have hu : K.is_user_vaddr (u64 (addr2 + length2)) = true := by
      cases hv : K.is_user_vaddr (u64 (addr2 + length2))
      · exact absurd (Or.inr (Or.inr (Or.inr (Or.inr (Or.inr hv))))) hbad
      · rfl
    have hwrap : u64 (addr2 + length2) = addr2 + length2 := by
      unfold u64
      exact Nat.mod_eq_of_lt hsum
    rw [hwrap] at hu ⊢
    have hstop := huser _ hu
    have hbase : addr2 = addr2 / K.PGSIZE * K.PGSIZE := by
      have := Nat.div_add_mod addr2 K.PGSIZE
      rw [hal, Nat.add_zero, Nat.mul_comm] at this
      exact this.symm
    have hpage : a / K.PGSIZE * K.PGSIZE =
        addr2 + (a / K.PGSIZE - addr2 / K.PGSIZE) * K.PGSIZE := by
      rw [Nat.sub_mul, ← hbase]
      have : addr2 ≤ a / K.PGSIZE * K.PGSIZE := by
        rw [hbase]
        exact Nat.mul_le_mul_right _ hin2.1
      omega
    have hk : a / K.PGSIZE - addr2 / K.PGSIZE < 2 ^ 64 := by
      have h1 : (a / K.PGSIZE - addr2 / K.PGSIZE) ≤
          (a / K.PGSIZE - addr2 / K.PGSIZE) * K.PGSIZE := Nat.le_mul_of_pos_right _ hpg
      have h2 := hin2.2
      omega
    have hscan := mmap_scan_hit K s1.spt (addr2 + length2)
      (a / K.PGSIZE - addr2 / K.PGSIZE) (2 ^ 64) addr2 hk (by rw [← hpage]; exact hin2.2)
      hstop (by rw [← hpage]; exact hspt)
    rw [hscan]

/-- The overlap test at work: after `[0x10000000, 0x10001000)` has been mapped,
the request for `[0xffff000, 0x10001000)` is refused. -/
theorem mmap_overlap_rejected_example :
    mmap K0 X0 0xffff000 0x2000 0 2 0
        (do_mmap K0 X0 0x10000000 4096 1 0x8004100000 0 opened).2 =
      some (0, (do_mmap K0 X0 0x10000000 4096 1 0x8004100000 0 opened).2) := by
  have huser : ∀ a, K0.is_user_vaddr a = true → a + K0.PGSIZE ≤ 2 ^ 64 := by
    intro a ha
    simp only [K0, decide_eq_true_eq] at ha ⊢
    omega
  exact mmap_overlap_rejected_without_overflow K0 X0 X0 0x10000000 4096 0xffff000 0x2000
    0x8004100000 1 0 2 0 0 opened (by decide) huser rfl (by norm_num) 0x10000000
    (by decide) (by decide)

/-! ## The dispatcher and the filesystem lock -/

/-- C17 fails on the code: with `SYS_REMOVE` in `rax` and the valid path pointer
`0x400000` in `rdi`, `syscall_handler` runs `remove` and then, for want of a
`break`, `open` on the same pointer: the file is opened into descriptor 2 and
`rax` ends up holding that descriptor, not the result of `remove` (1). -/
theorem syscall_handler_remove_falls_through :
    ∃ f1 s1, syscall_handler K0 N0 X0 ⟨N0.SYS_REMOVE, 0x400000, 0, 0, 0, 0⟩ fresh =
        Outcome.ret f1 s1 ∧
      f1.rax = 2 ∧ X0.filesys_remove = true ∧
      s1.fdTable 2 = X0.filesys_open ∧
      s1.trace = [Event.filesys_remove 0x400000, Event.filesys_open 0x400000,
        Event.lock_acquire, Event.lock_release] := by
  simp [syscall_handler, store_rax, remove, sys_open, check_address, add_file_to_fdt, fdt_scan,
    emit, u64_of_int, K0, N0, X0, fresh]
  exact ⟨_, _, ⟨rfl, rfl⟩, rfl, by simp [setSlot], rfl⟩

/-- C18 fails on the code: `create`, `remove` and `open` on the valid path
pointer `0x400000` call `filesys_create`, `filesys_remove` and `filesys_open`
before any `lock_acquire`; `open` takes the lock only after `filesys_open`
has returned. -/
theorem filesystem_entry_calls_made_without_lock :
    (∃ s1, create K0 X0 0x400000 0 fresh = Result.ret true s1 ∧
      s1.trace = [Event.filesys_create 0x400000 0] ∧
      fs_calls_locked false s1.trace = false) ∧
    (∃ s1, remove K0 X0 0x400000 fresh = Result.ret true s1 ∧
      s1.trace = [Event.filesys_remove 0x400000] ∧
      fs_calls_locked false s1.trace = false) ∧
    (∃ s1, sys_open K0 X0 0x400000 fresh = Result.ret 2 s1 ∧
      s1.trace = [Event.filesys_open 0x400000, Event.lock_acquire, Event.lock_release] ∧
      fs_calls_locked false s1.trace = false) := by
  refine ⟨?_, ?_, ?_⟩
  · simp [create, check_address, emit, fs_calls_locked, Event.fs_call, K0, X0, fresh]
  · simp [remove, check_address, emit, fs_calls_locked, Event.fs_call, K0, X0, fresh]
  · simp [sys_open, check_address, add_file_to_fdt, fdt_scan, emit, fs_calls_locked,
      Event.fs_call, K0, X0, fresh]

/-- C19 fails on the code: after `close (0)` in a fresh process the
console-input attachment counter is 0 while one slot, slot 0, still holds the
console-input sentinel. -/
theorem close_breaks_attachment_count :
    fresh.stdin_count = 1 ∧ slots_holding K0 fresh STDIN = 1 ∧
    Reach K0 any_call fresh (close K0 0 fresh) ∧
    (close K0 0 fresh).stdin_count = 0 ∧
    slots_holding K0 (close K0 0 fresh) STDIN = 1 := by
  have hreach : Reach K0 any_call fresh (close K0 0 fresh) :=
    Reach.next Reach.init trivial (c := Call.close 0) rfl
  have htab : (close K0 0 fresh).fdTable = fresh.fdTable := by
    simp [close, find_file_by_fd, K0, fresh, STDIN]
  have hcount : slots_holding K0 fresh STDIN = 1 := by
    set_option maxRecDepth 20000 in decide
  refine ⟨rfl, hcount, hreach, ?_, ?_⟩
  · simp [close, find_file_by_fd, K0, fresh, STDIN]
  · unfold slots_holding
    rw [htab]
    exact hcount

/-! ## Reference counting of open-file objects -/

/-- Counting the slots equal to `p` after one store outside the counted range. -/
theorem countP_range_setSlot_ge (t : Nat → Nat) (k v p n : Nat) (hk : n ≤ k) :
    (List.range n).countP (fun i => decide (setSlot t k v i = p)) =
      (List.range n).countP (fun i => decide (t i = p)) := by
  apply List.countP_congr
  intro i hi
  have hlt : i < n := List.mem_range.mp hi
  have hne : i ≠ k := by omega
  simp [setSlot, hne]

/-- Counting the slots equal to `p` after one store inside the counted range. -/
theorem countP_range_setSlot (t : Nat → Nat) (k v p n : Nat) (hk : k < n) :
    (List.range n).countP (fun i => decide (setSlot t k v i = p)) +
        (if t k = p then 1 else 0) =
      (List.range n).countP (fun i => decide (t i = p)) + (if v = p then 1 else 0) := by
  induction n with
  | zero => omega
  | succ n ih =>
    rw [List.range_succ, List.countP_append, List.countP_append, List.countP_singleton,
      List.countP_singleton]
    by_cases hkn : k = n
    · subst hkn
      rw [countP_range_setSlot_ge t k v p k (Nat.le_refl k)]
      simp only [setSlot_same, decide_eq_true_eq]
      omega
    · have hlt : k < n := by omega
      have := ih hlt
      have hne : n ≠ k := fun h => hkn h.symm
      simp only [setSlot_other t k v n hne, decide_eq_true_eq]
      omega

/-- The slot count reads nothing but the table. -/
theorem slots_holding_congr (K : Config) (s s1 : State) (p : Nat)
    (h : s1.fdTable = s.fdTable) : slots_holding K s1 p = slots_holding K s p := by
  unfold slots_holding
  rw [h]

/-- The slot count after one in-range store. -/
theorem slots_holding_setSlot (K : Config) (s s1 : State) (k v p : Nat)
    (hk : k < K.FDCOUNT_LIMIT) (h : s1.fdTable = setSlot s.fdTable k v) :
    slots_holding K s1 p + (if s.fdTable k = p then 1 else 0) =
      slots_holding K s p + (if v = p then 1 else 0) := by
  unfold slots_holding
  rw [h]
  exact countP_range_setSlot s.fdTable k v p K.FDCOUNT_LIMIT hk

/-- A slot that holds `p` is counted. -/
theorem slots_holding_pos (K : Config) (s : State) (k p : Nat)
    (hk : k < K.FDCOUNT_LIMIT) (h : s.fdTable k = p) : 0 < slots_holding K s p := by
  unfold slots_holding
  rw [List.countP_pos_iff]
  exact ⟨k, List.mem_range.mpr hk, by simp [h]⟩

/-- No slot holds `p` exactly when the count is zero. -/
theorem slots_holding_eq_zero (K : Config) (s : State) (p : Nat) :
    slots_holding K s p = 0 ↔ ∀ i, i < K.FDCOUNT_LIMIT → s.fdTable i ≠ p := by
  unfold slots_holding
  rw [List.countP_eq_zero]
  constructor
  · intro h i hi
    simpa using h i (List.mem_range.mpr hi)
  · intro h i hi
    simpa using h i (List.mem_range.mp hi)

/-- The release count reads nothing but the trace. -/
theorem released_count_congr (s s1 : State) (p : Nat) (h : s1.trace = s.trace) :
    released_count s1 p = released_count s p := by
  unfold released_count
  rw [h]

/-- Events other than `file_close (p)` do not change the release count of `p`. -/
theorem released_count_append (s s1 : State) (p : Nat) (evs : List Event)
    (h : s1.trace = s.trace ++ evs) :
    released_count s1 p = released_count s p + evs.count (Event.file_close p) := by
  unfold released_count
  rw [h, List.count_append]

/-- The three ways `close` ends: nothing but an attachment counter changes; or
the slot of a real file is cleared and the object is released, or its
duplication counter is decremented, or (negative counter) left alone. -/
theorem close_cases (K : Config) (fd : Int) (s : State) :
    ((close K fd s).fdTable = s.fdTable ∧ (close K fd s).files = s.files ∧
      (close K fd s).trace = s.trace) ∨
    (∃ f, 1 < fd ∧ fd < (K.FDCOUNT_LIMIT : Int) ∧ s.fdTable fd.toNat = f ∧ 2 < f ∧
      (close K fd s).fdTable = setSlot s.fdTable fd.toNat 0 ∧
      (((s.files f).dupCount = 0 ∧ (close K fd s).files = s.files ∧
          (close K fd s).trace =
            s.trace ++ [Event.lock_acquire, Event.file_close f, Event.lock_release]) ∨
        (0 < (s.files f).dupCount ∧
          (close K fd s).files =
            setFile s.files f ⟨(s.files f).pos, (s.files f).dupCount - 1⟩ ∧
          (close K fd s).trace = s.trace ++ [Event.lock_acquire, Event.lock_release]) ∨
        ((s.files f).dupCount < 0 ∧ (close K fd s).files = s.files ∧
          (close K fd s).trace = s.trace ++ [Event.lock_acquire, Event.lock_release]))) := by
  by_cases hle : find_file_by_fd K fd s = 0 ∨ fd ≤ 1 ∨ find_file_by_fd K fd s ≤ 2
  · left
    unfold close
    by_cases hz : find_file_by_fd K fd s = 0
    · simp [hz]
    · have hle2 : fd ≤ 1 ∨ find_file_by_fd K fd s ≤ 2 := by omega
      simp only [hz, hle2, if_true, if_false]
      split_ifs <;> exact ⟨rfl, rfl, rfl⟩
  · right
    have hfd : 1 < fd := by omega
    have hreal : 2 < find_file_by_fd K fd s := by omega
    have hr := find_file_by_fd_range K fd s (by omega)
    have hslot := find_file_by_fd_in_range K fd s hr.1 hr.2
    refine ⟨find_file_by_fd K fd s, hfd, hr.2, hslot.symm, hreal, ?_⟩
    rcases lt_trichotomy (s.files (find_file_by_fd K fd s)).dupCount 0 with hd | hd | hd
    · obtain ⟨htab, hfiles, htr⟩ := close_real_negative K fd s _ hfd rfl hreal hd
      exact ⟨htab, Or.inr (Or.inr ⟨hd, hfiles, htr⟩)⟩
    · obtain ⟨htab, hfiles, _, _, _, htr⟩ := close_real_last K fd s _ hfd rfl hreal hd
      exact ⟨htab, Or.inl ⟨hd, hfiles, htr⟩⟩
    · obtain ⟨htab, hfiles, _, _, _, htr⟩ := close_real_shared K fd s _ hfd rfl hreal hd
      exact ⟨htab, Or.inr (Or.inl ⟨hd, hfiles, htr⟩)⟩

/-- The bookkeeping of an object depends on the table, the object and the
trace only. -/
theorem object_ok_congr (K : Config) (e : Nat) (s s1 : State) (p : Nat)
    (ht : s1.fdTable = s.fdTable) (hf : s1.files p = s.files p) (htr : s1.trace = s.trace)
    (h : object_ok K e s p) : object_ok K e s1 p := by
  unfold object_ok at h ⊢
  rw [slots_holding_congr K s s1 p ht, released_count_congr s s1 p htr, hf]
  exact h

/-- Whatever references are held outside the table, `close` keeps the
bookkeeping of every real file sound. -/
theorem close_keeps_objects (K : Config) (fd : Int) (s : State) (e : Nat → Nat)
    (h : ∀ p, 2 < p → object_ok K (e p) s p) :
    ∀ p, 2 < p → object_ok K (e p) (close K fd s) p := by
  intro p hp
  rcases close_cases K fd s with ⟨ht, hf, htr⟩ | ⟨f, hfd, hlt, hslot, hreal, htab, hcase⟩
  · exact object_ok_congr K (e p) s _ p ht (by rw [hf]) htr (h p hp)
  · have hk : fd.toNat < K.FDCOUNT_LIMIT := by omega
    have hcnt := slots_holding_setSlot K s (close K fd s) fd.toNat 0 p hk htab
    have hpos := slots_holding_pos K s fd.toNat f hk hslot
    have hokf := h f hreal
    have hokp := h p hp
    have h0p : ¬ (0 = p) := by omega
    simp only [hslot, h0p, if_false] at hcnt
    unfold object_ok at hokf hokp ⊢
    rcases hcase with ⟨hd, hfiles, htr⟩ | ⟨hd, hfiles, htr⟩ | ⟨hd, hfiles, htr⟩
    · have hrel := released_count_append s (close K fd s) p _ htr
      by_cases hpf : f = p
      · subst hpf
        simp only [if_true] at hcnt
        simp [List.count_cons] at hrel
        rw [hfiles, hrel]
        omega
      · simp only [hpf, if_false] at hcnt
        simp [List.count_cons, hpf] at hrel
        rw [hfiles, hrel]
        omega
    · have hrel := released_count_append s (close K fd s) p _ htr
      simp [List.count_cons] at hrel
      by_cases hpf : f = p
      · subst hpf
        simp only [if_true] at hcnt
        rw [hfiles, hrel, setFile_same]
        simp only []
        omega
      · simp only [hpf, if_false] at hcnt
        rw [hfiles, hrel, setFile_other _ _ _ _ (fun hh => hpf hh.symm)]
        omega
    · omega

/-- A check that lets the caller go on leaves the state as it was. -/
theorem check_address_ret (K : Config) (uaddr : Nat) (s s1 : State) (u : Unit)
    (h : check_address K uaddr s = Result.ret u s1) : s1 = s := by
  unfold check_address exit at h
  split_ifs at h
  split at h
  · cases h
  · split at h
    · cases h
    · cases h
      rfl

/-- The three ways a returning `open` ends: `filesys_open` gave `NULL`; or the
table was full and the new object was released again; or the new object went
into a slot that was empty. -/
theorem sys_open_cases (K : Config) (X : Collab) (name : Nat) (s s1 : State) (v : Int)
    (h : sys_open K X name s = Result.ret v s1) :
    (X.filesys_open = 0 ∧ s1.fdTable = s.fdTable ∧ s1.files = s.files ∧
      s1.trace = s.trace ++ [Event.filesys_open name]) ∨
    (X.filesys_open ≠ 0 ∧ s1.fdTable = s.fdTable ∧ s1.files = s.files ∧
      s1.trace = s.trace ++ [Event.filesys_open name, Event.lock_acquire,
        Event.file_close X.filesys_open, Event.lock_release]) ∨
    (∃ i, X.filesys_open ≠ 0 ∧ i < K.FDCOUNT_LIMIT ∧ s.fdTable i = 0 ∧
      s1.fdTable = setSlot s.fdTable i X.filesys_open ∧ s1.files = s.files ∧
      s1.trace = s.trace ++ [Event.filesys_open name, Event.lock_acquire,
        Event.lock_release]) := by
  unfold sys_open at h
  cases hc : check_address K name s with
  | exited s2 => simp [hc] at h
  | ret u s2 =>
    have hs2 := check_address_ret K name s s2 u hc
    subst hs2
    simp only [hc] at h
    by_cases hz : X.filesys_open = 0
    · simp only [hz, if_true] at h
      injection h with _ hs
      subst hs
      exact Or.inl ⟨hz, rfl, rfl, rfl⟩
    · simp only [hz, if_false] at h
      injection h with _ hs
      subst hs
      have hft := add_file_to_fdt_files_trace K X.filesys_open
        (emit (Event.filesys_open name) s2)
      rcases add_file_to_fdt_fdTable K X.filesys_open (emit (Event.filesys_open name) s2) with
        ⟨hneg, htab⟩ | ⟨i, _, hi, hzero, hret, htab, _⟩
      · right
        left
        refine ⟨hz, ?_, ?_, ?_⟩
        · simp [hneg, htab]
        · simp [hneg, hft.1]
        · simp [hneg, hft.2]
      · right
        right
        have hne : ¬ (add_file_to_fdt K X.filesys_open
            (emit (Event.filesys_open name) s2)).1 = -1 := by
          rw [hret]
          omega
        refine ⟨i, hz, hi, hzero, ?_, ?_, ?_⟩
        · simp [hne, htab]
        · simp [hne, hft.1]
        · simp [hne, hft.2]

/-- The statements of `dup2` after its two early returns, for an in-range
`newfd`. -/
theorem dup2_unfold (K : Config) (a b : Int) (s : State)
    (hobj : find_file_by_fd K a s ≠ 0) (hab : a ≠ b)
    (hb0 : 0 ≤ b) (hb1 : b < (K.FDCOUNT_LIMIT : Int)) :
    (dup2 K a b s).2.fdTable =
      setSlot (close K b (dup2_bump (find_file_by_fd K a s) s)).fdTable b.toNat
        (find_file_by_fd K a s) ∧
    (dup2 K a b s).2.files = (close K b (dup2_bump (find_file_by_fd K a s) s)).files ∧
    (dup2 K a b s).2.trace = (close K b (dup2_bump (find_file_by_fd K a s) s)).trace := by
  unfold dup2 dup2_bump
  simp only [hobj, hab, if_false, hb0, hb1, and_self, if_true]

/-- A `dup2` that takes one of its early returns changes nothing. -/
theorem dup2_early (K : Config) (a b : Int) (s : State)
    (h : find_file_by_fd K a s = 0 ∨ a = b) : (dup2 K a b s).2 = s := by
  unfold dup2
  by_cases hobj : find_file_by_fd K a s = 0
  · simp [hobj]
  · have hab : a = b := by tauto
    subst hab
    simp [hobj]

/-- After the increment that opens `dup2`, the object being duplicated has one
reference held outside the table, and every real file is still sound. -/
theorem dup2_bump_keeps_objects (K : Config) (a : Int) (s : State)
    (hobj : find_file_by_fd K a s ≠ 0)
    (h : ∀ p, 2 < p → object_ok K 0 s p) :
    ∀ p, 2 < p →
      object_ok K (if p = find_file_by_fd K a s then 1 else 0)
        (dup2_bump (find_file_by_fd K a s) s) p := by
  intro p hp
  have hr := find_file_by_fd_range K a s hobj
  have hslot := find_file_by_fd_in_range K a s hr.1 hr.2
  have hk : a.toNat < K.FDCOUNT_LIMIT := by omega
  generalize hf : find_file_by_fd K a s = f at *
  have ht : (dup2_bump f s).fdTable = s.fdTable := by
    unfold dup2_bump
    split_ifs <;> rfl
  have htr : (dup2_bump f s).trace = s.trace := by
    unfold dup2_bump
    split_ifs <;> rfl
  by_cases hpf : p = f
  · subst hpf
    have h1 : ¬ p = STDIN := by unfold STDIN; omega
    have h2 : ¬ p = STDOUT := by unfold STDOUT; omega
    have hfl : (dup2_bump p s).files p = ⟨(s.files p).pos, (s.files p).dupCount + 1⟩ := by
      unfold dup2_bump
      simp only [h1, h2, if_false]
      exact setFile_same _ _ _
    have hpos := slots_holding_pos K s a.toNat p hk hslot.symm
    have hok := h p hp
    unfold object_ok at hok ⊢
    rw [slots_holding_congr K s _ p ht, released_count_congr s _ p htr, hfl]
    simp only [if_true]
    omega
  · have hfl : (dup2_bump f s).files p = s.files p := by
      unfold dup2_bump
      split_ifs
      · rfl
      · rfl
      · exact setFile_other _ _ _ _ hpf
    simp only [hpf, if_false]
    exact object_ok_congr K 0 s _ p ht hfl htr (h p hp)

/-- The call `dup2` onto an in-range descriptor keeps every real file sound. -/
theorem dup2_keeps_objects (K : Config) (a b : Int) (s : State)
    (hb0 : 0 ≤ b) (hb1 : b < (K.FDCOUNT_LIMIT : Int))
    (h : ∀ p, 2 < p → object_ok K 0 s p) :
    ∀ p, 2 < p → object_ok K 0 (dup2 K a b s).2 p := by
  intro p hp
  by_cases hearly : find_file_by_fd K a s = 0 ∨ a = b
  · rw [dup2_early K a b s hearly]
    exact h p hp
  · have hobj : find_file_by_fd K a s ≠ 0 := by tauto
    have hab : a ≠ b := by tauto
    obtain ⟨htab, hfiles, htr⟩ := dup2_unfold K a b s hobj hab hb0 hb1
    have hbump := dup2_bump_keeps_objects K a s hobj h
    have hclose := close_keeps_objects K b (dup2_bump (find_file_by_fd K a s) s)
      (fun q => if q = find_file_by_fd K a s then 1 else 0) hbump p hp
    have hk : b.toNat < K.FDCOUNT_LIMIT := by omega
    have hcnt := slots_holding_setSlot K (close K b (dup2_bump (find_file_by_fd K a s) s))
      (dup2 K a b s).2 b.toNat (find_file_by_fd K a s) p hk htab
    have hrel := released_count_congr (close K b (dup2_bump (find_file_by_fd K a s) s))
      (dup2 K a b s).2 p htr
    unfold object_ok at hclose ⊢
    rw [hfiles, hrel]
    by_cases hpf : p = find_file_by_fd K a s
    · simp only [hpf, if_true] at hclose hcnt ⊢
      split_ifs at hcnt <;> omega
    · have hfp : ¬ (find_file_by_fd K a s = p) := fun hh => hpf hh.symm
      simp only [hpf, hfp, if_false] at hclose hcnt
      split_ifs at hcnt <;> omega

/-- A returning `open` whose `filesys_open` answered `NULL` or a newly allocated
object keeps every real file sound. -/
theorem sys_open_keeps_objects (K : Config) (X : Collab) (name : Nat) (s s1 : State) (v : Int)
    (hopen : sys_open K X name s = Result.ret v s1)
    (hfresh : X.filesys_open = 0 ∨ fresh_object K s X.filesys_open)
    (h : ∀ p, 2 < p → object_ok K 0 s p) :
    ∀ p, 2 < p → object_ok K 0 s1 p := by
  intro p hp
  have hok := h p hp
  rcases sys_open_cases K X name s s1 v hopen with
    ⟨_, ht, hf, htr⟩ | ⟨hnz, ht, hf, htr⟩ | ⟨i, hnz, hi, hzero, ht, hf, htr⟩
  · have hrel := released_count_append s s1 p _ htr
    simp [List.count_cons] at hrel
    unfold object_ok at hok ⊢
    rw [slots_holding_congr K s s1 p ht, hf, hrel]
    exact hok
  · have hfr : fresh_object K s X.filesys_open := by tauto
    obtain ⟨_, hnoslot, _, hnorel⟩ := hfr
    have hrel := released_count_append s s1 p _ htr
    unfold object_ok at hok ⊢
    rw [slots_holding_congr K s s1 p ht, hf, hrel]
    by_cases hpf : X.filesys_open = p
    · subst hpf
      have hz := (slots_holding_eq_zero K s X.filesys_open).mpr hnoslot
      simp [List.count_cons]
      omega
    · simp [List.count_cons, hpf]
      simpa using hok
  · have hfr : fresh_object K s X.filesys_open := by tauto
    obtain ⟨_, hnoslot, hdup, hnorel⟩ := hfr
    have hrel := released_count_append s s1 p _ htr
    simp [List.count_cons] at hrel
    have hcnt := slots_holding_setSlot K s s1 i X.filesys_open p hi ht
    have h0p : ¬ (0 = p) := by omega
    simp only [hzero, h0p, if_false] at hcnt
    unfold object_ok at hok ⊢
    rw [hf, hrel]
    by_cases hpf : X.filesys_open = p
    · subst hpf
      have hz := (slots_holding_eq_zero K s X.filesys_open).mpr hnoslot
      simp only [if_true] at hcnt
      omega
    · simp only [hpf, if_false] at hcnt
      omega

/-- One call that respects `newfd_in_range` keeps every real file sound. -/
theorem step_keeps_objects (K : Config) (c : Call) (s s1 : State)
    (hok : newfd_in_range K s c) (hstep : step K c s = some s1)
    (h : ∀ p, 2 < p → object_ok K 0 s p) :
    ∀ p, 2 < p → object_ok K 0 s1 p := by
  cases c with
  | «open» X name =>
    unfold step at hstep
    cases hr : sys_open K X name s with
    | exited s2 => simp [hr] at hstep
    | ret v s2 =>
      simp only [hr, Option.some.injEq] at hstep
      subst hstep
      exact sys_open_keeps_objects K X name s s2 v hr hok h
  | close fd =>
    simp only [step, Option.some.injEq] at hstep
    subst hstep
    exact close_keeps_objects K fd s (fun _ => 0) h
  | dup2 oldfd newfd =>
    simp only [step, Option.some.injEq] at hstep
    subst hstep
    exact dup2_keeps_objects K oldfd newfd s hok.1 hok.2 h

end Pintos
